import Mathlib

/-!
Shallow embedding of the structural-DDL coordinator
`src/Interpreters/InterpreterDropQuery.cpp` (ClickHouse fork).

The C++ interpreter executes DROP / DETACH / TRUNCATE against tables,
dictionaries, temporary tables and whole databases.  We embed it as a pure
state-passing interpreter: the catalog is an explicit value, collaborator
calls (guards, locks, shutdown, waits, log proposal) are recorded as events
in a trace, and exceptions become an `Option Err` result.  Every definition
mirrors a concrete function of the source file; line numbers in doc
comments refer to `InterpreterDropQuery.cpp`.
-/

namespace CH

/-- `ASTDropQuery::Kind` (Drop / Detach / Truncate). -/
inductive Kind
  | drop
  | detach
  | truncate
deriving DecidableEq, Repr

/-- Error codes thrown by the interpreter.  Mapping to the C++ codes:
`logical` = LOGICAL_ERROR (empty names, "is not a View"),
`unsupported` = SYNTAX_ERROR (truncate database / truncate dictionary /
detach temporary table / temporary dictionary),
`unknownTable` = UNKNOWN_TABLE, `unknownDatabase` = UNKNOWN_DATABASE,
`unknownDictionary` = UNKNOWN_DICTIONARY,
`accessDenied` = access check failure (ACCESS_DENIED, thrown by
`Context::checkAccess`),
`cannotDrop` = failure of the droppability veto `checkTableCanBeDropped`,
`cannotDetach` = failure of `DatabaseAtomic::assertCanBeDetached`. -/
inductive Err
  | logical
  | unsupported
  | unknownTable
  | unknownDatabase
  | unknownDictionary
  | accessDenied
  | cannotDrop
  | cannotDetach
deriving DecidableEq, Repr

/-- `AccessType` flags used by this interpreter. -/
inductive AccessType
  | DROP_DATABASE
  | DROP_TABLE
  | DROP_VIEW
  | DROP_DICTIONARY
  | TRUNCATE
deriving DecidableEq, Repr

/-- One `AccessRightsElement`: a set of access flags on a database or on a
`database.table` pair (`table = none` means database-level). -/
structure AccessElem where
  flags : List AccessType
  database : String
  table : Option String
deriving DecidableEq, Repr

/-- The operation descriptor `ASTDropQuery` (fields used by the
interpreter). -/
structure Query where
  kind : Kind
  database : String
  table : String
  cluster : String
  ifExists : Bool
  temporary : Bool
  noDelay : Bool
  noDDLLock : Bool
  isDictionary : Bool
  isView : Bool
deriving DecidableEq, Repr

/-- `InterpreterDropQuery::getRequiredAccessForDDLOnCluster`
(lines 300-331): the pure required-access computator.  It inspects only
the operation descriptor, never the catalog. -/
def getRequiredAccessForDDLOnCluster (q : Query) : List AccessElem :=
  if q.table = "" then
    if q.kind = Kind.detach then
      [⟨[AccessType.DROP_DATABASE], q.database, none⟩]
    else if q.kind = Kind.drop then
      [⟨[AccessType.DROP_DATABASE], q.database, none⟩]
    else []
  else if q.isDictionary then
    if q.kind = Kind.detach then
      [⟨[AccessType.DROP_DICTIONARY], q.database, some q.table⟩]
    else if q.kind = Kind.drop then
      [⟨[AccessType.DROP_DICTIONARY], q.database, some q.table⟩]
    else []
  else if ¬ q.temporary then
    if q.kind = Kind.drop then
      [⟨[AccessType.DROP_TABLE, AccessType.DROP_VIEW], q.database, some q.table⟩]
    else if q.kind = Kind.truncate then
      [⟨[AccessType.TRUNCATE], q.database, some q.table⟩]
    else if q.kind = Kind.detach then
      [⟨[AccessType.DROP_TABLE, AccessType.DROP_VIEW], q.database, some q.table⟩]
    else []
  else []

/-- A live table/view object (`IStorage`): its stable id (`UUID`), the
view flag, and the outcome of its droppability veto
(`checkTableCanBeDropped` succeeds iff `canBeDropped`). -/
structure Table where
  uuid : Nat
  isView : Bool
  canBeDropped : Bool
deriving DecidableEq, Repr

/-- A live database object (`IDatabase`): engine name (`getEngineName`),
`shouldBeEmptyOnDetach`, the outcome of
`DatabaseAtomic::assertCanBeDetached`, and its two child registries
(tables and dictionaries are separate registries that share the DDL guard
keyspace). -/
structure Database where
  engine : String
  shouldBeEmptyOnDetach : Bool
  canBeDetached : Bool
  tables : List (String × Table)
  dicts : List String
deriving DecidableEq, Repr

/-- The mutable world: the global `DatabaseCatalog` (database name →
database object) and the session-scoped external (temporary) table
registry. -/
structure St where
  catalog : List (String × Database)
  external : List (String × Table)
deriving DecidableEq, Repr

/-- The calling context: current database, whether this call replays a
replicated-log entry (`ClientInfo::QueryKind::REPLICATED_LOG_QUERY`), the
`database_atomic_wait_for_drop_and_detach_synchronously` setting, and the
principal's access rights (consulted by `Context::checkAccess`). -/
structure Ctx where
  currentDatabase : String
  isReplicatedLogQuery : Bool
  waitSynchronously : Bool
  granted : AccessType → String → Option String → Bool

/-- Catalog / session mutations performed by the interpreter. -/
inductive Mutation
  | detachTable (db tbl : String)
  | dropTable (db tbl : String)
  | truncateTable (db tbl : String)
  | detachDictionary (db dict : String)
  | removeDictionary (db dict : String)
  | removeExternalTable (tbl : String)
  | dropExternal (tbl : String)
  | truncateExternal (tbl : String)
  | detachDatabase (db : String) (dropFlag : Bool) (wasPreEmptied : Bool)
deriving DecidableEq, Repr

/-- Observable collaborator calls, recorded in execution order.
`releaseGuard` is recorded where the source releases the guard explicitly
(`ddl_guard = ` on line 142 of `executeToTable`); scope-exit releases on
exception paths are not part of the trace.  `childDict` / `childTable`
record the literal arguments of the recursive child invocations made by
`executeToDatabase`. -/
inductive Event
  | acquireGuard (db tbl : String)
  | releaseGuard (db tbl : String)
  | acquireDatabaseGuard (db : String)
  | captureUuid (u : Option Nat)
  | checkAccess (a : AccessType) (db : String) (tbl : Option String)
  | vetoCheck (db tbl : String)
  | shutdown (tbl : String)
  | lockExclusive (tbl : String)
  | mutate (m : Mutation)
  | propose (db : String)
  | waitDropped (u : Option Nat)
  | waitDetached (u : Option Nat)
  | childDict (name : String) (ifExists : Bool)
  | childTable (name : String) (ifExists : Bool) (noDelay : Bool)
  | clusterRoute
deriving DecidableEq, Repr

/-- Outcome of one interpreter call: final state, event trace (up to the
failure point when `err` is set), the thrown error if any, and whether a
Replicated-database feedback result replaced the empty acknowledgement. -/
structure Res where
  st : St
  trace : List Event
  err : Option Err
  feedback : Bool
deriving DecidableEq, Repr

/-- `DatabaseCatalog::tryGetDatabase`. -/
def getDb (st : St) (name : String) : Option Database :=
  (st.catalog.find? (fun p => p.1 == name)).map (fun p => p.2)

/-- `IDatabase::tryGetTable`. -/
def findTable (d : Database) (name : String) : Option Table :=
  (d.tables.find? (fun p => p.1 == name)).map (fun p => p.2)

/-- `IDatabase::isDictionaryExist`. -/
def dictExists (d : Database) (name : String) : Bool :=
  d.dicts.any (fun n => n == name)

/-- Update the database registered under `name` in the catalog. -/
def updateDb (st : St) (name : String) (f : Database → Database) : St :=
  { st with catalog := st.catalog.map (fun p => if p.1 == name then (p.1, f p.2) else p) }

/-- `IDatabase::detachTable` / `IDatabase::dropTable`: both remove the
name → object mapping from the database's table registry (`dropTable`
additionally destroys data, which lives outside the catalog). -/
def removeTableFrom (st : St) (dbName tbl : String) : St :=
  updateDb st dbName (fun d => { d with tables := d.tables.filter (fun p => !(p.1 == tbl)) })

/-- `detachDictionary` / `removeDictionary`: remove the dictionary name
from the database's dictionary registry. -/
def removeDictFrom (st : St) (dbName dict : String) : St :=
  updateDb st dbName (fun d => { d with dicts := d.dicts.filter (fun n => !(n == dict)) })

/-- `DatabaseCatalog::detachDatabase`: remove the database entry itself. -/
def removeDatabase (st : St) (dbName : String) : St :=
  { st with catalog := st.catalog.filter (fun p => !(p.1 == dbName)) }

/-- Session registry resolution: `Context::tryResolveStorageID` with
`ResolveExternal`. -/
def findExternal (st : St) (name : String) : Option Table :=
  (st.external.find? (fun p => p.1 == name)).map (fun p => p.2)

/-- `Context::removeExternalTable`. -/
def removeExternal (st : St) (name : String) : St :=
  { st with external := st.external.filter (fun p => !(p.1 == name)) }

/-- `IDatabase::tryGetTableUUID`: only the Atomic family (Atomic,
Replicated) exposes table UUIDs; other engines return Nil (`none`). -/
def tryGetTableUUID (d : Database) (t : Table) : Option Nat :=
  if d.engine = "Atomic" ∨ d.engine = "Replicated" then some t.uuid else none

/-- `InterpreterDropQuery::executeToTemporaryTable` (lines 209-240). -/
def executeToTemporaryTable (name : String) (kind : Kind) (st : St) : Res :=
  if kind = Kind.detach then
    ⟨st, [], some Err.unsupported, false⟩
  else
    match findExternal st name with
    | none => ⟨st, [], none, false⟩
    | some _ =>
      match kind with
      | Kind.truncate =>
          ⟨st, [Event.lockExclusive name, Event.mutate (Mutation.truncateExternal name)],
           none, false⟩
      | Kind.drop =>
          ⟨removeExternal st name,
           [Event.mutate (Mutation.removeExternalTable name), Event.shutdown name,
            Event.lockExclusive name, Event.mutate (Mutation.dropExternal name)],
           none, false⟩
      | Kind.detach => ⟨st, [], some Err.unsupported, false⟩

/-- `InterpreterDropQuery::executeToDictionary` (lines 164-207). -/
def executeToDictionary (ctx : Ctx) (dbNameArg dictName : String) (kind : Kind)
    (ifExists isTemporary noDDLLock : Bool) (st : St) : Res :=
  if isTemporary then
    ⟨st, [], some Err.unsupported, false⟩
  else
    let dbName := if dbNameArg = "" then ctx.currentDatabase else dbNameArg
    let tr0 := if noDDLLock then [] else [Event.acquireGuard dbName dictName]
    match getDb st dbName with
    | none =>
        if ifExists then ⟨st, tr0, none, false⟩
        else ⟨st, tr0, some Err.unknownDatabase, false⟩
    | some d =>
        if ¬ dictExists d dictName then
          if ifExists then ⟨st, tr0, none, false⟩
          else ⟨st, tr0, some Err.unknownDictionary, false⟩
        else
          match kind with
          | Kind.detach =>
              let tr1 := tr0 ++ [Event.checkAccess AccessType.DROP_DICTIONARY dbName (some dictName)]
              if ctx.granted AccessType.DROP_DICTIONARY dbName (some dictName) then
                ⟨removeDictFrom st dbName dictName,
                 tr1 ++ [Event.mutate (Mutation.detachDictionary dbName dictName)], none, false⟩
              else ⟨st, tr1, some Err.accessDenied, false⟩
          | Kind.truncate =>
              ⟨st, tr0, some Err.unsupported, false⟩
          | Kind.drop =>
              let tr1 := tr0 ++ [Event.checkAccess AccessType.DROP_DICTIONARY dbName (some dictName)]
              if ctx.granted AccessType.DROP_DICTIONARY dbName (some dictName) then
                ⟨removeDictFrom st dbName dictName,
                 tr1 ++ [Event.mutate (Mutation.removeDictionary dbName dictName)], none, false⟩
              else ⟨st, tr1, some Err.accessDenied, false⟩

/-- Lines 141-160 of `executeToTable`: release the DDL guard, optionally
wait (Drop: until the captured persistent id is fully dropped; Detach on
an exactly-Atomic database: until the detached table is unused), and
compute the Replicated feedback result.  Reached on every non-throwing
path, also when the table (or the database) was absent. -/
def tablePost (ctx : Ctx) (q : Query) (dbName : String) (dbOpt : Option Database)
    (uuid : Option Nat) (st : St) (tr : List Event) : Res :=
  let tr1 := tr ++ (if q.noDDLLock then [] else [Event.releaseGuard dbName q.table])
  let tr2 := tr1 ++
    (if q.noDelay then
       if q.kind = Kind.drop then [Event.waitDropped uuid]
       else if q.kind = Kind.detach then
         match dbOpt with
         | some d => if d.engine = "Atomic" then [Event.waitDetached uuid] else []
         | none => []
       else []
     else [])
  let fb : Bool := match dbOpt with
    | some d => (d.engine == "Replicated") && !ctx.isReplicatedLogQuery
    | none => false
  ⟨st, tr2, none, fb⟩

/-- Lines 88-139 of `executeToTable`: the per-kind engine dispatch once
database `d` and table `t` resolved under DDL guard (events so far:
`tr0`), finishing through `tablePost` (lines 141-160). -/
def tableDispatch (ctx : Ctx) (qp q : Query) (dbName : String) (d : Database) (t : Table)
    (st : St) (tr0 : List Event) : Res :=
  if qp.isView ∧ t.isView = false then ⟨st, tr0, some Err.logical, false⟩
  else
    let uuid := tryGetTableUUID d t
    let tr1 := tr0 ++ [Event.captureUuid uuid]
    match q.kind with
                | Kind.detach =>
                    let a := if t.isView then AccessType.DROP_VIEW else AccessType.DROP_TABLE
                    let tr2 := tr1 ++ [Event.checkAccess a dbName (some q.table)]
                    if ctx.granted a dbName (some q.table) = false then
                      ⟨st, tr2, some Err.accessDenied, false⟩
                    else
                      let tr3 := tr2 ++ [Event.shutdown q.table]
                      let tr4 := tr3 ++
                        (if d.engine ≠ "Atomic" ∧ d.engine ≠ "Replicated" then
                           [Event.lockExclusive q.table] else [])
                      if d.engine = "Replicated" ∧ ctx.isReplicatedLogQuery = false then
                        tablePost ctx q dbName (some d) uuid st (tr4 ++ [Event.propose dbName])
                      else
                        tablePost ctx q dbName (some d) uuid (removeTableFrom st dbName q.table)
                          (tr4 ++ [Event.mutate (Mutation.detachTable dbName q.table)])
                | Kind.truncate =>
                    let tr2 := tr1 ++ [Event.checkAccess AccessType.TRUNCATE dbName (some q.table)]
                    if ctx.granted AccessType.TRUNCATE dbName (some q.table) = false then
                      ⟨st, tr2, some Err.accessDenied, false⟩
                    else
                      let tr3 := tr2 ++ [Event.vetoCheck dbName q.table]
                      if t.canBeDropped = false then ⟨st, tr3, some Err.cannotDrop, false⟩
                      else
                        let tr4 := tr3 ++ [Event.lockExclusive q.table]
                        if d.engine = "Replicated" ∧ ctx.isReplicatedLogQuery = false then
                          tablePost ctx q dbName (some d) uuid st (tr4 ++ [Event.propose dbName])
                        else
                          tablePost ctx q dbName (some d) uuid st
                            (tr4 ++ [Event.mutate (Mutation.truncateTable dbName q.table)])
                | Kind.drop =>
                    let a := if t.isView then AccessType.DROP_VIEW else AccessType.DROP_TABLE
                    let tr2 := tr1 ++ [Event.checkAccess a dbName (some q.table)]
                    if ctx.granted a dbName (some q.table) = false then
                      ⟨st, tr2, some Err.accessDenied, false⟩
                    else
                      let tr3 := tr2 ++ [Event.vetoCheck dbName q.table]
                      if t.canBeDropped = false then ⟨st, tr3, some Err.cannotDrop, false⟩
                      else
                        let tr4 := tr3 ++ [Event.shutdown q.table]
                        let tr5 := tr4 ++
                          (if d.engine ≠ "Atomic" ∧ d.engine ≠ "Replicated" then
                             [Event.lockExclusive q.table] else [])
                        if qp.table ≠ "" ∧ d.engine = "Replicated" ∧ ctx.isReplicatedLogQuery = false then
                          tablePost ctx q dbName (some d) uuid st (tr5 ++ [Event.propose dbName])
                        else
                          tablePost ctx q dbName (some d) uuid (removeTableFrom st dbName q.table)
                            (tr5 ++ [Event.mutate (Mutation.dropTable dbName q.table)])

/-- `InterpreterDropQuery::executeToTable` (lines 62-161).  `qp` is the
interpreter's member `query_ptr` (the original statement — the recursive
call from `executeToDatabase` passes a freshly built child query as `q`
while `query_ptr` still denotes the whole-database statement); `q` is the
`query` reference parameter.  The line-68 `tryResolveStorageID` with the
`ResolveExternal` namespace succeeds only for an unqualified name
(`resolveStorageIDImpl` rejects a storage id carrying a database name when
only the external namespace is allowed), so the session-registry route is
taken exactly when the statement's database name is empty and the name is
registered; a TEMPORARY-flagged statement with a qualified name falls
through to the line-72 temporary check instead. -/
def executeToTable (ctx : Ctx) (qp : Query) (q : Query) (st : St) : Res :=
  if q.database = "" ∧ (findExternal st q.table).isSome then
    executeToTemporaryTable q.table q.kind st
  else
    let dbName := if q.temporary ∨ q.database = "" then ctx.currentDatabase else q.database
    if q.temporary then
      if q.ifExists then ⟨st, [], none, false⟩
      else ⟨st, [], some Err.unknownTable, false⟩
    else
      let tr0 := if q.noDDLLock then [] else [Event.acquireGuard dbName q.table]
      match getDb st dbName with
      | none =>
          if q.ifExists then tablePost ctx q dbName none none st tr0
          else ⟨st, tr0, some Err.unknownDatabase, false⟩
      | some d =>
          match findTable d q.table with
          | none =>
              if q.ifExists then tablePost ctx q dbName (some d) none st tr0
              else ⟨st, tr0, some Err.unknownTable, false⟩
          | some t => tableDispatch ctx qp q dbName d t st tr0

/-- The snapshot of table names taken by `getTablesIterator` on the live
database object. -/
def tableNames (st : St) (db : String) : List String :=
  match getDb st db with
  | some d => d.tables.map (fun p => p.1)
  | none => []

/-- The dictionary loop of `executeToDatabase` (lines 263-267): process a
snapshot of dictionary names, aborting on the first failure.  Each child
call is recorded with its literal arguments (`if_exists = false`,
`is_temporary = false`, `no_ddl_lock = false`). -/
def processDicts (ctx : Ctx) (dbName : String) (kind : Kind) :
    List String → St → Res
  | [], st => ⟨st, [], none, false⟩
  | n :: rest, st =>
      let r := executeToDictionary ctx dbName n kind false false false st
      match r.err with
      | some e => ⟨r.st, Event.childDict n false :: r.trace, some e, false⟩
      | none =>
          let r2 := processDicts ctx dbName kind rest r.st
          ⟨r2.st, Event.childDict n false :: (r.trace ++ r2.trace), r2.err, false⟩

/-- The child `ASTDropQuery` built on lines 269-279 of `executeToDatabase`
(`if_exists = true`, same kind and `no_delay`, all other flags default). -/
def childQuery (kind : Kind) (dbName tblName : String) (noDelay : Bool) : Query :=
  { kind := kind, database := dbName, table := tblName, cluster := "",
    ifExists := true, temporary := false, noDelay := noDelay,
    noDDLLock := false, isDictionary := false, isView := false }

/-- The table loop of `executeToDatabase` (lines 275-281): process a
snapshot of table names with the child query, aborting on the first
failure.  `qp` is the member `query_ptr` of the interpreter (the original
whole-database statement). -/
def processTables (ctx : Ctx) (qp : Query) (dbName : String) (kind : Kind) (noDelay : Bool) :
    List String → St → Res
  | [], st => ⟨st, [], none, false⟩
  | n :: rest, st =>
      let r := executeToTable ctx qp (childQuery kind dbName n noDelay) st
      match r.err with
      | some e => ⟨r.st, Event.childTable n true noDelay :: r.trace, some e, false⟩
      | none =>
          let r2 := processTables ctx qp dbName kind noDelay rest r.st
          ⟨r2.st, Event.childTable n true noDelay :: (r.trace ++ r2.trace), r2.err, false⟩

/-- `InterpreterDropQuery::executeToDatabase` (lines 243-297). -/
def executeToDatabase (ctx : Ctx) (qp : Query) (dbName : String) (kind : Kind)
    (ifExists noDelay : Bool) (st : St) : Res :=
  let tr0 := [Event.acquireGuard dbName ""]
  match getDb st dbName with
  | none =>
      if ifExists then ⟨st, tr0, none, false⟩
      else ⟨st, tr0, some Err.unknownDatabase, false⟩
  | some d =>
      if kind = Kind.truncate then ⟨st, tr0, some Err.unsupported, false⟩
      else
        let dropFlag := kind = Kind.drop
        let tr1 := tr0 ++ [Event.checkAccess AccessType.DROP_DATABASE dbName none]
        if ctx.granted AccessType.DROP_DATABASE dbName none = false then
          ⟨st, tr1, some Err.accessDenied, false⟩
        else
          let rEmpty :=
            if d.shouldBeEmptyOnDetach then
              let rd := processDicts ctx dbName kind d.dicts st
              match rd.err with
              | some e => ⟨rd.st, rd.trace, some e, false⟩
              | none =>
                  let rt := processTables ctx qp dbName kind noDelay (tableNames rd.st dbName) rd.st
                  ⟨rt.st, rd.trace ++ rt.trace, rt.err, false⟩
            else (⟨st, [], none, false⟩ : Res)
          match rEmpty.err with
          | some e => ⟨rEmpty.st, tr1 ++ rEmpty.trace, some e, false⟩
          | none =>
              let tr2 := tr1 ++ rEmpty.trace ++ [Event.acquireDatabaseGuard dbName]
              if (¬ dropFlag) ∧ d.engine = "Atomic" ∧ d.canBeDetached = false then
                ⟨rEmpty.st, tr2, some Err.cannotDetach, false⟩
              else
                ⟨removeDatabase rEmpty.st dbName,
                 tr2 ++ [Event.mutate (Mutation.detachDatabase dbName dropFlag d.shouldBeEmptyOnDetach)],
                 none, false⟩

/-- `InterpreterDropQuery::execute` (lines 39-59).  Cluster routing hands
the operation to the external multi-host executor: recorded as an event,
state untouched.  The `database_atomic_wait_for_drop_and_detach_synchronously`
setting forces `no_delay` by mutating the statement itself, so the forced
value is also what `query_ptr` carries into the recursive calls. -/
def execute (ctx : Ctx) (q0 : Query) (st : St) : Res :=
  if q0.cluster ≠ "" then ⟨st, [Event.clusterRoute], none, false⟩
  else
    let q := if ctx.waitSynchronously then { q0 with noDelay := true } else q0
    if q.table ≠ "" then
      if q.isDictionary = false then executeToTable ctx q q st
      else executeToDictionary ctx q.database q.table q.kind q.ifExists q.temporary q.noDDLLock st
    else if q.database ≠ "" then
      executeToDatabase ctx q q.database q.kind q.ifExists q.noDelay st
    else ⟨st, [], some Err.logical, false⟩

/-- Completion-wait events. -/
def isWait : Event → Bool
  | Event.waitDropped _ => true
  | Event.waitDetached _ => true
  | _ => false

/-- Guard-release events. -/
def isRelease : Event → Bool
  | Event.releaseGuard _ _ => true
  | _ => false

/-- Catalog / session mutation events. -/
def isMutateEv : Event → Bool
  | Event.mutate _ => true
  | _ => false

/-- Persistent-id capture events. -/
def isCapture : Event → Bool
  | Event.captureUuid _ => true
  | _ => false

/-- Droppability-veto invocation events. -/
def isVeto : Event → Bool
  | Event.vetoCheck _ _ => true
  | _ => false

/-- Dictionary-child invocation events of the recursive database drop. -/
def isChildDict : Event → Bool
  | Event.childDict _ _ => true
  | _ => false

/-- Table-child invocation events of the recursive database drop. -/
def isChildTable : Event → Bool
  | Event.childTable _ _ _ => true
  | _ => false

/-- Database-detach mutation events. -/
def isDetachDbEv : Event → Bool
  | Event.mutate (Mutation.detachDatabase _ _ _) => true
  | _ => false

/-- Every event strictly before the first event satisfying `mark` avoids
`bad`; when no `mark` event occurs, the whole trace must avoid `bad`. -/
def noneBefore (bad mark : Event → Bool) (es : List Event) : Bool :=
  (es.takeWhile (fun e => !mark e)).all (fun e => !bad e)

/-- Dictionary-child invocations carry `ifExists = false`. -/
def childDictFlagsOk : Event → Bool
  | Event.childDict _ b => !b
  | _ => true

/-- Table-child invocations carry `ifExists = true` and the parent's
`noDelay`. -/
def childTableFlagsOk (noDelay : Bool) : Event → Bool
  | Event.childTable _ b nd => b && (nd == noDelay)
  | _ => true

/-- No dictionary-child invocation occurs after a table-child one. -/
def dictsBeforeTables : List Event → Bool
  | [] => true
  | Event.childTable _ _ _ :: rest => rest.all (fun e => !isChildDict e)
  | _ :: rest => dictsBeforeTables rest

/-- Observable side effects: access checks, lifecycle hooks, catalog and
session mutations, log proposals. -/
def isEffect : Event → Bool
  | Event.checkAccess _ _ _ => true
  | Event.vetoCheck _ _ => true
  | Event.shutdown _ => true
  | Event.lockExclusive _ => true
  | Event.mutate _ => true
  | Event.propose _ => true
  | _ => false

/-- NotFound-class errors. -/
def isNotFound : Err → Bool
  | Err.unknownTable => true
  | Err.unknownDatabase => true
  | Err.unknownDictionary => true
  | _ => false

/-- Table lookup through the whole catalog. -/
def findTableIn (st : St) (db tbl : String) : Option Table :=
  (getDb st db).bind (fun d => findTable d tbl)

/-- Dictionary existence through the whole catalog. -/
def dictExistsIn (st : St) (db dict : String) : Bool :=
  match getDb st db with
  | some d => dictExists d dict
  | none => false

/-- The registered database names. -/
def dbNames (st : St) : List String := st.catalog.map (fun p => p.1)

/-- The operation shapes for which the spec prescribes
UnsupportedOperation, with the resolution conditions under which the
interpreter reaches the corresponding throw site: any operation on a
temporary dictionary; TRUNCATE of an existing dictionary; DETACH of an
unqualified table name resolved in the session (temporary) registry (a
qualified name never resolves in the external namespace); TRUNCATE of an
existing database. -/
def unsupportedShape (ctx : Ctx) (q : Query) (st : St) : Bool :=
  (q.cluster == "") &&
  ((q.table != "" && q.isDictionary &&
      (q.temporary ||
        (q.kind == Kind.truncate &&
          dictExistsIn st (if q.database = "" then ctx.currentDatabase else q.database) q.table)))
   ||
   (q.table != "" && !q.isDictionary && q.kind == Kind.detach &&
      q.database == "" && (findExternal st q.table).isSome)
   ||
   (q.table == "" && q.database != "" && q.kind == Kind.truncate && (getDb st q.database).isSome))

/-- Claim C5 as amended: the required-access computator, written from the
spec's case analysis, with the dictionary clause restricted to the Drop
and Detach kinds (a dictionary target with kind Truncate demands no
access, exactly as an empty object name with kind Truncate does). -/
def requiredAccessSpec (q : Query) : List AccessElem :=
  if q.table = "" then
    if q.kind = Kind.truncate then []
    else [⟨[AccessType.DROP_DATABASE], q.database, none⟩]
  else if q.isDictionary then
    if q.kind = Kind.truncate then []
    else [⟨[AccessType.DROP_DICTIONARY], q.database, some q.table⟩]
  else if q.temporary then []
  else
    match q.kind with
    | Kind.drop => [⟨[AccessType.DROP_TABLE, AccessType.DROP_VIEW], q.database, some q.table⟩]
    | Kind.detach => [⟨[AccessType.DROP_TABLE, AccessType.DROP_VIEW], q.database, some q.table⟩]
    | Kind.truncate => [⟨[AccessType.TRUNCATE], q.database, some q.table⟩]

/-- A principal holding every access right. -/
def grantAll : AccessType → String → Option String → Bool := fun _ _ _ => true

/-- A plain calling context: current database `default`, not replaying a
replicated-log entry, synchronous-wait setting off, all rights granted. -/
def ctxAll : Ctx := ⟨"default", false, false, grantAll⟩

/-- A replaying context: same as `ctxAll` but executing a replicated-log
entry. -/
def ctxReplay : Ctx := ⟨"default", true, false, grantAll⟩

/-- Fixture: droppable table with uuid 1. -/
def tFix1 : Table := ⟨1, false, true⟩

/-- Fixture: table with uuid 2 whose droppability veto fails. -/
def tFix2 : Table := ⟨2, false, false⟩

/-- Fixture: droppable table with uuid 3. -/
def tFix3 : Table := ⟨3, false, true⟩

/-- Fixture: an Ordinary database `D` that must be emptied on detach, with
tables `t1` (droppable), `t2` (vetoed) and dictionary `d1`. -/
def dbFixD : Database := ⟨"Ordinary", true, true, [("t1", tFix1), ("t2", tFix2)], ["d1"]⟩

/-- Fixture catalog holding only `D`. -/
def stFixD : St := ⟨[("D", dbFixD)], []⟩

/-- DROP DATABASE D (no ifExists, no delay). -/
def qDropD : Query := ⟨Kind.drop, "D", "", "", false, false, false, false, false, false⟩

/-- Fixture: a Replicated database `R` holding droppable table `t`. -/
def dbFixR : Database := ⟨"Replicated", true, true, [("t", tFix3)], []⟩

/-- Fixture catalog holding only `R`. -/
def stFixR : St := ⟨[("R", dbFixR)], []⟩

/-- DROP DATABASE R. -/
def qDropR : Query := ⟨Kind.drop, "R", "", "", false, false, false, false, false, false⟩

/-- DROP TABLE R.t (original statement names the table). -/
def qDropRt : Query := ⟨Kind.drop, "R", "t", "", false, false, false, false, false, false⟩

/-- Fixture: an Atomic database `A` holding droppable table `t`. -/
def dbFixA : Database := ⟨"Atomic", true, true, [("t", tFix3)], []⟩

/-- Fixture catalog holding only `A`. -/
def stFixA : St := ⟨[("A", dbFixA)], []⟩

/-- TRUNCATE TABLE A.t. -/
def qTruncA : Query := ⟨Kind.truncate, "A", "t", "", false, false, false, false, false, false⟩

/-- DROP TABLE D.t2 with ifExists = true (t2 is vetoed). -/
def qDropDt2 : Query := ⟨Kind.drop, "D", "t2", "", true, false, false, false, false, false⟩

/-- Synchronous (noDelay) DROP TABLE A.t. -/
def qDropAtSync : Query := ⟨Kind.drop, "A", "t", "", false, false, true, false, false, false⟩

/-- DROP TABLE D.zz (nonexistent), without ifExists. -/
def qDropZz : Query := ⟨Kind.drop, "D", "zz", "", false, false, false, false, false, false⟩

/-- DROP TABLE IF EXISTS D.zz (nonexistent). -/
def qDropZzIf : Query := ⟨Kind.drop, "D", "zz", "", true, false, false, false, false, false⟩

/-- TRUNCATE of database D. -/
def qTruncDbD : Query := ⟨Kind.truncate, "D", "", "", false, false, false, false, false, false⟩

/-- Claim C1, counterexample: dropping database `D` (which requires
emptying) invokes the dictionary handler for its dictionary `d1` with
`ifExists = false`, not `ifExists = true` as the claim states for every
recursive child invocation. -/
theorem C1_counterexample :
    Event.childDict "d1" false ∈ (execute ctxAll qDropD stFixD).trace ∧
    Event.childDict "d1" true ∉ (execute ctxAll qDropD stFixD).trace := by decide

/-- Claim C2, counterexample: a Drop of table `R.t` in Replicated database
`R`, outside any replay context, reached through the recursive database
teardown (the original statement names no table), performs the local
catalog mutation `dropTable` and appends nothing to the replicated log. -/
theorem C2_counterexample :
    ctxAll.isReplicatedLogQuery = false ∧
    (getDb stFixR "R").map Database.engine = some "Replicated" ∧
    Event.mutate (Mutation.dropTable "R" "t") ∈ (execute ctxAll qDropR stFixR).trace ∧
    Event.propose "R" ∉ (execute ctxAll qDropR stFixR).trace := by decide

/-- Claim C4, counterexample: TRUNCATE of table `A.t` in an Atomic
(SelfSynchronizing) database takes the coordinator-side exclusive object
lock, although the claim says it is taken only for the Plain variant. -/
theorem C4_counterexample :
    (getDb stFixA "A").map Database.engine = some "Atomic" ∧
    Event.lockExclusive "t" ∈ (execute ctxAll qTruncA stFixA).trace := by decide

/-- Under successful non-temporary resolution, `executeToTable` is exactly
the resolved dispatch of lines 88-139. -/
theorem executeToTable_resolved (ctx : Ctx) (qp q : Query) (st : St) (d : Database) (t : Table)
    (hdb : q.database ≠ "") (htmp : q.temporary = false)
    (hd : getDb st q.database = some d)
    (ht : findTable d q.table = some t) :
    executeToTable ctx qp q st =
      tableDispatch ctx qp q q.database d t st
        (if q.noDDLLock then [] else [Event.acquireGuard q.database q.table]) := by
  have h2 : ¬(q.temporary = true ∨ q.database = "") := by
    rintro (h | h)
    · rw [htmp] at h
      exact Bool.false_ne_true h
    · exact hdb h
  have h1 : ¬(q.database = "" ∧ (findExternal st q.table).isSome = true) :=
    fun h => hdb h.1
  unfold executeToTable
  rw [if_neg h1, if_neg h2, htmp]
  rw [if_neg Bool.false_ne_true]
  simp only [hd, ht]

/-- Claim C4, amended: TRUNCATE of a resolved non-temporary table takes
the coordinator-side exclusive object lock for every engine variant;
Drop and Detach take it only when the engine is neither Atomic nor
Replicated (Plain), as the claim states. -/
theorem C4_lock_rule (ctx : Ctx) (qp q : Query) (st : St) (d : Database) (t : Table)
    (hdb : q.database ≠ "") (htmp : q.temporary = false)
    (hd : getDb st q.database = some d)
    (ht : findTable d q.table = some t)
    (hview : qp.isView = false)
    (hg : ∀ a s o, ctx.granted a s o = true)
    (hveto : t.canBeDropped = true) :
    (q.kind = Kind.truncate →
       Event.lockExclusive q.table ∈ (executeToTable ctx qp q st).trace) ∧
    ((q.kind = Kind.detach ∨ q.kind = Kind.drop) →
       ((d.engine = "Atomic" ∨ d.engine = "Replicated") →
          Event.lockExclusive q.table ∉ (executeToTable ctx qp q st).trace) ∧
       (d.engine ≠ "Atomic" → d.engine ≠ "Replicated" →
          Event.lockExclusive q.table ∈ (executeToTable ctx qp q st).trace)) := by
  rw [executeToTable_resolved ctx qp q st d t hdb htmp hd ht]
  have hv : ¬(qp.isView = true ∧ t.isView = false) := by
    intro h
    rw [hview] at h
    exact Bool.false_ne_true h.1
  cases hk : q.kind <;>
    by_cases hA : d.engine = "Atomic" <;>
    by_cases hR : d.engine = "Replicated" <;>
    by_cases hRep : ctx.isReplicatedLogQuery = true <;>
    by_cases hnl : q.noDDLLock = true <;>
    by_cases hqp : qp.table = "" <;>
    simp_all [tableDispatch, tablePost, tryGetTableUUID, hg]

/-- Claim C5, counterexample: the claim says a dictionary target yields
DROP_DICTIONARY on database.object, but for the operation
(kind = Truncate, dictionary target d.t) the computator returns the empty
requirement set, not DROP_DICTIONARY on d.t. -/
theorem C5_counterexample :
    getRequiredAccessForDDLOnCluster
        ⟨Kind.truncate, "d", "t", "", false, false, false, false, true, false⟩ = [] ∧
    ([] : List AccessElem) ≠ [⟨[AccessType.DROP_DICTIONARY], "d", some "t"⟩] := by
  exact ⟨rfl, by decide⟩

/-- Claim C5, amended: the required-access computator is the pure function
of the Operation given by the spec's case analysis, with the dictionary
clause restricted to the Drop and Detach kinds (a dictionary target with
kind Truncate yields the empty set). -/
theorem C5_required_access (q : Query) :
    getRequiredAccessForDDLOnCluster q = requiredAccessSpec q := by
  rcases q with ⟨k, db, tbl, cl, ie, tmp, nd, nl, isd, isv⟩
  cases k <;> cases isd <;> cases tmp <;> by_cases htbl : tbl = "" <;>
    simp [getRequiredAccessForDDLOnCluster, requiredAccessSpec, htbl]

/-- Claim C10: for kind Truncate the computator returns the empty
requirement set both when the object name is empty (database target) and
when the target is a dictionary; only Drop and Detach contribute
DROP_DATABASE or DROP_DICTIONARY. -/
theorem C10_truncate_no_requirement (q : Query) (hk : q.kind = Kind.truncate) :
    (q.table = "" → getRequiredAccessForDDLOnCluster q = []) ∧
    (q.isDictionary = true → getRequiredAccessForDDLOnCluster q = []) := by
  rcases q with ⟨k, db, tbl, cl, ie, tmp, nd, nl, isd, isv⟩
  cases hk
  constructor
  · intro h
    dsimp only at h
    subst h
    simp [getRequiredAccessForDDLOnCluster]
  · intro h
    by_cases htbl : tbl = "" <;>
      simp_all [getRequiredAccessForDDLOnCluster]

/-- Witness for C10 at concrete inputs: TRUNCATE of database `d`, and
TRUNCATE of dictionary `d.x`, both demand no access. -/
theorem C10_witness :
    getRequiredAccessForDDLOnCluster
        ⟨Kind.truncate, "d", "", "", false, false, false, false, false, false⟩ = [] ∧
    getRequiredAccessForDDLOnCluster
        ⟨Kind.truncate, "d", "x", "", false, false, false, false, true, false⟩ = [] :=
  ⟨(C10_truncate_no_requirement _ rfl).1 rfl, (C10_truncate_no_requirement _ rfl).2 rfl⟩

/-- Claim C2, amended: for a resolved table in a Replicated database, a
replaying context always mutates locally and never proposes, for all
three kinds; outside replay, Detach and Truncate always propose and
perform no local mutation, and Drop proposes exactly when the original
(outermost) statement names a table — a Drop reached through recursive
database teardown (empty original table name) mutates locally. -/
theorem C2_replicated_redirect (ctx : Ctx) (qp q : Query) (st : St) (d : Database) (t : Table)
    (hdb : q.database ≠ "") (htmp : q.temporary = false)
    (hd : getDb st q.database = some d)
    (ht : findTable d q.table = some t)
    (heng : d.engine = "Replicated")
    (hview : qp.isView = false)
    (hg : ∀ a s o, ctx.granted a s o = true)
    (hveto : t.canBeDropped = true) :
    (ctx.isReplicatedLogQuery = true →
       Event.propose q.database ∉ (executeToTable ctx qp q st).trace ∧
       (q.kind = Kind.detach →
          Event.mutate (Mutation.detachTable q.database q.table) ∈ (executeToTable ctx qp q st).trace) ∧
       (q.kind = Kind.truncate →
          Event.mutate (Mutation.truncateTable q.database q.table) ∈ (executeToTable ctx qp q st).trace) ∧
       (q.kind = Kind.drop →
          Event.mutate (Mutation.dropTable q.database q.table) ∈ (executeToTable ctx qp q st).trace)) ∧
    (ctx.isReplicatedLogQuery = false →
       ((q.kind = Kind.detach ∨ q.kind = Kind.truncate ∨ (q.kind = Kind.drop ∧ qp.table ≠ "")) →
          Event.propose q.database ∈ (executeToTable ctx qp q st).trace ∧
          (executeToTable ctx qp q st).st = st ∧
          (∀ m, Event.mutate m ∉ (executeToTable ctx qp q st).trace)) ∧
       (q.kind = Kind.drop ∧ qp.table = "" →
          Event.propose q.database ∉ (executeToTable ctx qp q st).trace ∧
          Event.mutate (Mutation.dropTable q.database q.table) ∈ (executeToTable ctx qp q st).trace)) := by
  rw [executeToTable_resolved ctx qp q st d t hdb htmp hd ht]
  have hv : ¬(qp.isView = true ∧ t.isView = false) := by
    intro h
    rw [hview] at h
    exact Bool.false_ne_true h.1
  cases hk : q.kind <;>
    by_cases hRep : ctx.isReplicatedLogQuery = true <;>
    by_cases hnl : q.noDDLLock = true <;>
    by_cases hqp : qp.table = "" <;>
    simp_all [tableDispatch, tablePost, tryGetTableUUID, hg, heng]

/-- Witness for C2 at a concrete input: a direct DROP TABLE R.t on the
Replicated fixture outside replay proposes to the log and performs no
local catalog mutation. -/
theorem C2_witness :
    Event.propose "R" ∈ (executeToTable ctxAll qDropRt qDropRt stFixR).trace ∧
    (executeToTable ctxAll qDropRt qDropRt stFixR).st = stFixR ∧
    (∀ m, Event.mutate m ∉ (executeToTable ctxAll qDropRt qDropRt stFixR).trace) :=
  ((C2_replicated_redirect ctxAll qDropRt qDropRt stFixR dbFixR tFix3 (by decide) rfl
      (by decide) (by decide) rfl rfl (fun _ _ _ => rfl) rfl).2 rfl).1
    (Or.inr (Or.inr ⟨rfl, by decide⟩))

/-- Witness for C4 at a concrete input: TRUNCATE A.t on the Atomic
fixture takes the coordinator-side exclusive lock. -/
theorem C4_witness :
    Event.lockExclusive "t" ∈ (executeToTable ctxAll qTruncA qTruncA stFixA).trace :=
  (C4_lock_rule ctxAll qTruncA qTruncA stFixA dbFixA tFix3 (by decide) rfl (by decide)
      (by decide) rfl (fun _ _ _ => rfl) rfl).1 rfl

set_option maxHeartbeats 1600000 in
/-- Claim C8: the droppability veto `checkTableCanBeDropped` runs for
every resolved table Drop and Truncate before any catalog mutation, never
for Detach; when the veto fails the operation fails with the veto error
(PreconditionViolation), no mutation occurs and the state is unchanged —
`ifExists` is arbitrary here, so it does not suppress the failure. -/
theorem C8_veto_rule (ctx : Ctx) (qp q : Query) (st : St) (d : Database) (t : Table)
    (hdb : q.database ≠ "") (htmp : q.temporary = false)
    (hd : getDb st q.database = some d)
    (ht : findTable d q.table = some t)
    (hview : qp.isView = false)
    (hg : ∀ a s o, ctx.granted a s o = true) :
    (q.kind = Kind.detach →
       Event.vetoCheck q.database q.table ∉ (executeToTable ctx qp q st).trace) ∧
    ((q.kind = Kind.drop ∨ q.kind = Kind.truncate) →
       Event.vetoCheck q.database q.table ∈ (executeToTable ctx qp q st).trace ∧
       noneBefore isMutateEv isVeto (executeToTable ctx qp q st).trace = true) ∧
    ((q.kind = Kind.drop ∨ q.kind = Kind.truncate) → t.canBeDropped = false →
       (executeToTable ctx qp q st).err = some Err.cannotDrop ∧
       (executeToTable ctx qp q st).st = st ∧
       (executeToTable ctx qp q st).trace.all (fun e => !isMutateEv e) = true) := by
  rw [executeToTable_resolved ctx qp q st d t hdb htmp hd ht]
  have hv : ¬(qp.isView = true ∧ t.isView = false) := by
    intro h
    rw [hview] at h
    exact Bool.false_ne_true h.1
  cases hk : q.kind <;>
    by_cases hcd : t.canBeDropped = true <;>
    by_cases hnl : q.noDDLLock = true <;>
    by_cases hR : d.engine = "Replicated" <;>
    by_cases hRep : ctx.isReplicatedLogQuery = true <;>
    by_cases hqp : qp.table = "" <;>
    simp_all [tableDispatch, tablePost, tryGetTableUUID, hg, noneBefore,
      isMutateEv, isVeto]

set_option maxHeartbeats 1600000 in
/-- Claim C9: on the successful path of a resolved non-temporary table
operation, the persistent id is captured at resolution time before any
catalog mutation, the DDL guard is released before any completion wait is
entered, and any Drop completion wait waits on exactly the captured
persistent id. -/
theorem C9_guard_wait_order (ctx : Ctx) (qp q : Query) (st : St) (d : Database) (t : Table)
    (hdb : q.database ≠ "") (htmp : q.temporary = false)
    (hd : getDb st q.database = some d)
    (ht : findTable d q.table = some t)
    (hview : qp.isView = false)
    (hg : ∀ a s o, ctx.granted a s o = true)
    (hveto : t.canBeDropped = true)
    (hnl : q.noDDLLock = false) :
    (executeToTable ctx qp q st).err = none ∧
    Event.captureUuid (tryGetTableUUID d t) ∈ (executeToTable ctx qp q st).trace ∧
    Event.releaseGuard q.database q.table ∈ (executeToTable ctx qp q st).trace ∧
    noneBefore isMutateEv isCapture (executeToTable ctx qp q st).trace = true ∧
    noneBefore isWait isRelease (executeToTable ctx qp q st).trace = true ∧
    (∀ u, Event.waitDropped u ∈ (executeToTable ctx qp q st).trace → u = tryGetTableUUID d t) := by
  rw [executeToTable_resolved ctx qp q st d t hdb htmp hd ht]
  have hv : ¬(qp.isView = true ∧ t.isView = false) := by
    intro h
    rw [hview] at h
    exact Bool.false_ne_true h.1
  cases hk : q.kind <;>
    by_cases hR : d.engine = "Replicated" <;>
    by_cases hA : d.engine = "Atomic" <;>
    by_cases hRep : ctx.isReplicatedLogQuery = true <;>
    by_cases hqp : qp.table = "" <;>
    by_cases hnd : q.noDelay = true <;>
    simp_all [tableDispatch, tablePost, tryGetTableUUID, hg, noneBefore,
      isMutateEv, isCapture, isWait, isRelease]

/-- Witness for C8 at a concrete input: DROP of vetoed table D.t2 with
`ifExists = true` still fails with the veto error, unchanged state, no
mutation events. -/
theorem C8_witness :
    (executeToTable ctxAll qDropDt2 qDropDt2 stFixD).err = some Err.cannotDrop ∧
    (executeToTable ctxAll qDropDt2 qDropDt2 stFixD).st = stFixD ∧
    (executeToTable ctxAll qDropDt2 qDropDt2 stFixD).trace.all (fun e => !isMutateEv e) = true :=
  (C8_veto_rule ctxAll qDropDt2 qDropDt2 stFixD dbFixD tFix2 (by decide) rfl (by decide)
      (by decide) rfl (fun _ _ _ => rfl)).2.2 (Or.inl rfl) rfl

/-- Witness for C9 at a concrete input: synchronous DROP of A.t captures
uuid 3, releases the guard before the completion wait, and waits on the
captured uuid. -/
theorem C9_witness :
    (executeToTable ctxAll qDropAtSync qDropAtSync stFixA).err = none ∧
    Event.captureUuid (tryGetTableUUID dbFixA tFix3) ∈
      (executeToTable ctxAll qDropAtSync qDropAtSync stFixA).trace ∧
    Event.releaseGuard "A" "t" ∈ (executeToTable ctxAll qDropAtSync qDropAtSync stFixA).trace ∧
    noneBefore isMutateEv isCapture (executeToTable ctxAll qDropAtSync qDropAtSync stFixA).trace = true ∧
    noneBefore isWait isRelease (executeToTable ctxAll qDropAtSync qDropAtSync stFixA).trace = true ∧
    (∀ u, Event.waitDropped u ∈ (executeToTable ctxAll qDropAtSync qDropAtSync stFixA).trace →
       u = tryGetTableUUID dbFixA tFix3) :=
  C9_guard_wait_order ctxAll qDropAtSync qDropAtSync stFixA dbFixA tFix3 (by decide) rfl
    (by decide) (by decide) rfl (fun _ _ _ => rfl) rfl rfl

set_option maxHeartbeats 1600000 in
/-- Claim C7: when the target identifier does not resolve to an existing
object, `ifExists = false` fails with a NotFound-class error, while
`ifExists = true` succeeds with no access check, no lifecycle hook, no
mutation, and unchanged catalog state.  Stated for the three resolution
paths: non-temporary table, temporary-flagged table, and dictionary. -/
theorem C7_missing_target (ctx : Ctx) (qp q : Query) (st : St) :
    (q.temporary = false → q.database ≠ "" →
     (getDb st q.database).bind (fun d => findTable d q.table) = none →
       (q.ifExists = false →
          ((executeToTable ctx qp q st).err = some Err.unknownDatabase ∨
           (executeToTable ctx qp q st).err = some Err.unknownTable)) ∧
       (q.ifExists = true →
          (executeToTable ctx qp q st).err = none ∧
          (executeToTable ctx qp q st).st = st ∧
          (executeToTable ctx qp q st).trace.all (fun e => !isEffect e) = true)) ∧
    (q.temporary = true → findExternal st q.table = none →
       (q.ifExists = false → (executeToTable ctx qp q st).err = some Err.unknownTable) ∧
       (q.ifExists = true →
          (executeToTable ctx qp q st).err = none ∧
          (executeToTable ctx qp q st).st = st ∧
          (executeToTable ctx qp q st).trace = [])) ∧
    (∀ (dbn dn : String) (k : Kind) (nl : Bool),
       (∀ d2, getDb st (if dbn = "" then ctx.currentDatabase else dbn) = some d2 →
          dictExists d2 dn = false) →
       ((executeToDictionary ctx dbn dn k false false nl st).err = some Err.unknownDatabase ∨
        (executeToDictionary ctx dbn dn k false false nl st).err = some Err.unknownDictionary) ∧
       ((executeToDictionary ctx dbn dn k true false nl st).err = none ∧
        (executeToDictionary ctx dbn dn k true false nl st).st = st ∧
        (executeToDictionary ctx dbn dn k true false nl st).trace.all (fun e => !isEffect e) = true)) := by
  refine ⟨?_, ?_, ?_⟩
  · intro htmp hdb hmiss
    have h2 : ¬(q.temporary = true ∨ q.database = "") := by
      rintro (h | h)
      · rw [htmp] at h
        exact Bool.false_ne_true h
      · exact hdb h
    have h1 : ¬(q.database = "" ∧ (findExternal st q.table).isSome = true) :=
      fun h => hdb h.1
    unfold executeToTable
    rw [if_neg h1, if_neg h2, htmp, if_neg Bool.false_ne_true]
    cases hdbo : getDb st q.database with
    | none =>
        cases hk : q.kind <;> cases hie : q.ifExists <;>
          by_cases hnl : q.noDDLLock = true <;>
          by_cases hnd : q.noDelay = true <;>
          simp_all [tablePost, isEffect]
    | some d1 =>
        rw [hdbo, Option.some_bind] at hmiss
        cases hk : q.kind <;> cases hie : q.ifExists <;>
          by_cases hnl : q.noDDLLock = true <;>
          by_cases hnd : q.noDelay = true <;>
          by_cases hA : d1.engine = "Atomic" <;>
          simp_all [tablePost, isEffect]
  · intro htmp hext
    have h1 : ¬(q.database = "" ∧ (findExternal st q.table).isSome = true) := by
      rw [hext]
      simp
    unfold executeToTable
    rw [if_neg h1, htmp]
    cases hie : q.ifExists <;> simp_all
  · intro dbn dn k nl hmiss
    unfold executeToDictionary
    cases hdbo : getDb st (if dbn = "" then ctx.currentDatabase else dbn) with
    | none => simp_all [isEffect]
    | some d2 => simp_all [hmiss d2 hdbo, isEffect]

/-- Witness for C7 at concrete inputs: DROP of nonexistent D.zz fails
NotFound without ifExists and succeeds with ifExists, leaving the state
unchanged with no effectful events. -/
theorem C7_witness :
    ((executeToTable ctxAll qDropZz qDropZz stFixD).err = some Err.unknownDatabase ∨
     (executeToTable ctxAll qDropZz qDropZz stFixD).err = some Err.unknownTable) ∧
    ((executeToTable ctxAll qDropZzIf qDropZzIf stFixD).err = none ∧
     (executeToTable ctxAll qDropZzIf qDropZzIf stFixD).st = stFixD ∧
     (executeToTable ctxAll qDropZzIf qDropZzIf stFixD).trace.all (fun e => !isEffect e) = true) :=
  ⟨((C7_missing_target ctxAll qDropZz qDropZz stFixD).1 rfl (by decide) (by decide)).1 rfl,
   ((C7_missing_target ctxAll qDropZzIf qDropZzIf stFixD).1 rfl (by decide) (by decide)).2 rfl⟩

/-- `tablePost` never throws. -/
theorem tablePost_err (ctx : Ctx) (q : Query) (dbName : String) (dbOpt : Option Database)
    (uuid : Option Nat) (st : St) (tr : List Event) :
    (tablePost ctx q dbName dbOpt uuid st tr).err = none := rfl

/-- `tablePost` returns the state it is given. -/
theorem tablePost_st (ctx : Ctx) (q : Query) (dbName : String) (dbOpt : Option Database)
    (uuid : Option Nat) (st : St) (tr : List Event) :
    (tablePost ctx q dbName dbOpt uuid st tr).st = st := rfl

/-- The resolved dispatch never throws the unsupported error. -/
theorem tableDispatch_no_unsupported (ctx : Ctx) (qp q : Query) (dbName : String) (d : Database)
    (t : Table) (st : St) (tr0 : List Event) :
    (tableDispatch ctx qp q dbName d t st tr0).err ≠ some Err.unsupported := by
  unfold tableDispatch
  cases hk : q.kind <;>
    simp only [apply_ite Res.st, apply_ite Res.err, tablePost_st, tablePost_err] <;>
    split_ifs <;> simp_all

/-- Any error of the resolved dispatch leaves the state unchanged. -/
theorem tableDispatch_err_st (ctx : Ctx) (qp q : Query) (dbName : String) (d : Database)
    (t : Table) (st : St) (tr0 : List Event) :
    (tableDispatch ctx qp q dbName d t st tr0).err.isSome →
      (tableDispatch ctx qp q dbName d t st tr0).st = st := by
  unfold tableDispatch
  cases hk : q.kind <;>
    simp only [apply_ite Res.st, apply_ite Res.err, tablePost_st, tablePost_err] <;>
    split_ifs <;> simp_all

/-- `executeToTemporaryTable` throws the unsupported error exactly for
Detach; its errors leave the state unchanged. -/
theorem executeToTemporaryTable_unsupported (name : String) (k : Kind) (st : St) :
    ((executeToTemporaryTable name k st).err = some Err.unsupported ↔ k = Kind.detach) ∧
    ((executeToTemporaryTable name k st).err.isSome →
       (executeToTemporaryTable name k st).st = st) := by
  unfold executeToTemporaryTable
  cases k <;> cases hfe : findExternal st name <;> simp

/-- `executeToTable` throws the unsupported error exactly when the target
resolves in the session (temporary) registry and the kind is Detach; its
errors leave the state unchanged. -/
theorem executeToTable_unsupported (ctx : Ctx) (qp q : Query) (st : St) :
    ((executeToTable ctx qp q st).err = some Err.unsupported ↔
       (q.database = "" ∧ (findExternal st q.table).isSome = true ∧
        q.kind = Kind.detach)) ∧
    ((executeToTable ctx qp q st).err.isSome → (executeToTable ctx qp q st).st = st) := by
  unfold executeToTable
  by_cases h1 : q.database = "" ∧ (findExternal st q.table).isSome = true
  · rw [if_pos h1]
    have h := executeToTemporaryTable_unsupported q.table q.kind st
    simp_all [h1.1, h1.2]
  · rw [if_neg h1]
    cases htmp : q.temporary with
    | true => cases hie : q.ifExists <;> simp_all
    | false =>
        cases hdbo : getDb st (if q.temporary = true ∨ q.database = "" then ctx.currentDatabase else q.database) with
        | none => cases hie : q.ifExists <;> simp_all [tablePost_err, tablePost_st]
        | some d =>
            cases hto : findTable d q.table with
            | none => cases hie : q.ifExists <;> simp_all [tablePost_err, tablePost_st]
            | some t =>
                have hnu := tableDispatch_no_unsupported ctx qp q
                    (if q.temporary = true ∨ q.database = "" then ctx.currentDatabase else q.database) d t st
                    (if q.noDDLLock = true then []
                     else [Event.acquireGuard
                             (if q.temporary = true ∨ q.database = "" then ctx.currentDatabase else q.database)
                             q.table])
                have hes := tableDispatch_err_st ctx qp q
                    (if q.temporary = true ∨ q.database = "" then ctx.currentDatabase else q.database) d t st
                    (if q.noDDLLock = true then []
                     else [Event.acquireGuard
                             (if q.temporary = true ∨ q.database = "" then ctx.currentDatabase else q.database)
                             q.table])
                simp_all

/-- `executeToDictionary` throws the unsupported error exactly for a
temporary dictionary or TRUNCATE of an existing dictionary; its errors
leave the state unchanged. -/
theorem executeToDictionary_unsupported (ctx : Ctx) (dbn dn : String) (k : Kind)
    (ie it nl : Bool) (st : St) :
    ((executeToDictionary ctx dbn dn k ie it nl st).err = some Err.unsupported ↔
       (it = true ∨ (k = Kind.truncate ∧
          dictExistsIn st (if dbn = "" then ctx.currentDatabase else dbn) dn = true))) ∧
    ((executeToDictionary ctx dbn dn k ie it nl st).err.isSome →
       (executeToDictionary ctx dbn dn k ie it nl st).st = st) := by
  unfold executeToDictionary
  cases it with
  | true => simp
  | false =>
      cases hdbo : getDb st (if dbn = "" then ctx.currentDatabase else dbn) with
      | none => cases ie <;> simp_all [dictExistsIn]
      | some d2 =>
          cases k <;> cases hde : dictExists d2 dn <;> cases ie <;>
            by_cases hg : ctx.granted AccessType.DROP_DICTIONARY
                (if dbn = "" then ctx.currentDatabase else dbn) (some dn) = true <;>
            simp_all [dictExistsIn]

/-- The dictionary loop of the recursive database teardown never throws
the unsupported error for Drop or Detach kinds. -/
theorem processDicts_no_unsupported (ctx : Ctx) (dbName : String) (k : Kind)
    (hk : k ≠ Kind.truncate) :
    ∀ (ns : List String) (st : St),
      (processDicts ctx dbName k ns st).err ≠ some Err.unsupported := by
  intro ns
  induction ns with
  | nil => intro st; simp [processDicts]
  | cons n rest ih =>
      intro st
      have h := executeToDictionary_unsupported ctx dbName n k false false false st
      unfold processDicts
      cases he : (executeToDictionary ctx dbName n k false false false st).err with
      | none => simp [he, ih]
      | some e => simp_all

/-- The table loop of the recursive database teardown never throws the
unsupported error when the database name is nonempty. -/
theorem processTables_no_unsupported (ctx : Ctx) (qp : Query) (dbName : String) (k : Kind)
    (nd : Bool) (hdb : dbName ≠ "") :
    ∀ (ns : List String) (st : St),
      (processTables ctx qp dbName k nd ns st).err ≠ some Err.unsupported := by
  intro ns
  induction ns with
  | nil => intro st; simp [processTables]
  | cons n rest ih =>
      intro st
      have h := executeToTable_unsupported ctx qp (childQuery k dbName n nd) st
      unfold processTables
      cases he : (executeToTable ctx qp (childQuery k dbName n nd) st).err with
      | none => simp [he, ih]
      | some e => simp_all [childQuery]

/-- `executeToDatabase` throws the unsupported error exactly for TRUNCATE
of an existing database, and that error leaves the state unchanged. -/
theorem executeToDatabase_unsupported (ctx : Ctx) (qp : Query) (dbn : String) (k : Kind)
    (ie nd : Bool) (st : St) (hdb : dbn ≠ "") :
    ((executeToDatabase ctx qp dbn k ie nd st).err = some Err.unsupported ↔
       (k = Kind.truncate ∧ (getDb st dbn).isSome = true)) ∧
    ((executeToDatabase ctx qp dbn k ie nd st).err = some Err.unsupported →
       (executeToDatabase ctx qp dbn k ie nd st).st = st) := by
  unfold executeToDatabase
  cases hdbo : getDb st dbn with
  | none => cases ie <;> simp_all
  | some d =>
      cases k with
      | truncate => simp
      | drop =>
          by_cases hacc : ctx.granted AccessType.DROP_DATABASE dbn none = false
          · simp [hacc]
          · cases hse : d.shouldBeEmptyOnDetach with
            | false => simp [hacc, hse]
            | true =>
                cases hde : (processDicts ctx dbn Kind.drop d.dicts st).err with
                | some e =>
                    have hnd := processDicts_no_unsupported ctx dbn Kind.drop (by decide) d.dicts st
                    simp_all [hacc]
                | none =>
                    cases hte : (processTables ctx qp dbn Kind.drop nd
                        (tableNames (processDicts ctx dbn Kind.drop d.dicts st).st dbn)
                        (processDicts ctx dbn Kind.drop d.dicts st).st).err with
                    | some e =>
                        have hnt := processTables_no_unsupported ctx qp dbn Kind.drop nd hdb
                            (tableNames (processDicts ctx dbn Kind.drop d.dicts st).st dbn)
                            (processDicts ctx dbn Kind.drop d.dicts st).st
                        simp_all [hacc]
                    | none => simp_all [hacc]
      | detach =>
          by_cases hacc : ctx.granted AccessType.DROP_DATABASE dbn none = false
          · simp [hacc]
          · cases hse : d.shouldBeEmptyOnDetach with
            | false =>
                simp_all [hacc]
                all_goals (split_ifs <;> simp_all)
            | true =>
                cases hde : (processDicts ctx dbn Kind.detach d.dicts st).err with
                | some e =>
                    have hnd := processDicts_no_unsupported ctx dbn Kind.detach (by decide) d.dicts st
                    simp_all [hacc]
                | none =>
                    cases hte : (processTables ctx qp dbn Kind.detach nd
                        (tableNames (processDicts ctx dbn Kind.detach d.dicts st).st dbn)
                        (processDicts ctx dbn Kind.detach d.dicts st).st).err with
                    | some e =>
                        have hnt := processTables_no_unsupported ctx qp dbn Kind.detach nd hdb
                            (tableNames (processDicts ctx dbn Kind.detach d.dicts st).st dbn)
                            (processDicts ctx dbn Kind.detach d.dicts st).st
                        simp_all [hacc]
                    | none =>
                        simp_all [hacc]
                        all_goals (split_ifs <;> simp_all)

set_option maxHeartbeats 1600000 in
/-- Claim C6: the coordinator fails with the unsupported error
(SYNTAX_ERROR) exactly for the four claimed operation shapes — truncate of
an existing database, truncate of an existing dictionary, detach of a
resolvable temporary table, and any operation on a temporary dictionary —
and such a failure performs no catalog mutation. -/
theorem C6_unsupported_exact (ctx : Ctx) (q : Query) (st : St) :
    ((execute ctx q st).err = some Err.unsupported ↔ unsupportedShape ctx q st = true) ∧
    ((execute ctx q st).err = some Err.unsupported → (execute ctx q st).st = st) := by
  by_cases hcl : q.cluster = ""
  case neg =>
    have hred : execute ctx q st = ⟨st, [Event.clusterRoute], none, false⟩ := by
      unfold execute
      simp [hcl]
    rw [hred]
    simp [unsupportedShape, hcl]
  case pos =>
  cases hws : ctx.waitSynchronously with
  | false =>
      have hredq : execute ctx q st =
          (if q.table ≠ "" then
            if q.isDictionary = false then executeToTable ctx q q st
            else executeToDictionary ctx q.database q.table q.kind q.ifExists q.temporary q.noDDLLock st
          else if q.database ≠ "" then
            executeToDatabase ctx q q.database q.kind q.ifExists q.noDelay st
          else ⟨st, [], some Err.logical, false⟩) := by
        unfold execute
        rw [hws]
        simp [hcl]
      rw [hredq]
      by_cases htb : q.table = ""
      · by_cases hdbe : q.database = ""
        · rw [if_neg (by simp [htb]), if_neg (by simp [hdbe])]
          simp [unsupportedShape, htb, hdbe]
        · rw [if_neg (by simp [htb]), if_pos (by simp [hdbe])]
          obtain ⟨hiff, hst⟩ := executeToDatabase_unsupported ctx q q.database q.kind q.ifExists
              q.noDelay st hdbe
          constructor
          · rw [hiff]
            simp [unsupportedShape, htb, hdbe, hcl]
          · intro he
            exact hst he
      · by_cases hdic : q.isDictionary = true
        · rw [if_pos (by simp [htb]), if_neg (by simp [hdic])]
          obtain ⟨hiff, hst⟩ := executeToDictionary_unsupported ctx q.database q.table q.kind
              q.ifExists q.temporary q.noDDLLock st
          constructor
          · rw [hiff]
            simp [unsupportedShape, htb, hdic, hcl]
          · intro he
            exact hst (by rw [he]; rfl)
        · rw [if_pos (by simp [htb]), if_pos (by simp at hdic ⊢; exact hdic)]
          obtain ⟨hiff, hst⟩ := executeToTable_unsupported ctx q q st
          constructor
          · rw [hiff]
            simp [unsupportedShape, htb, hdic, hcl]
            tauto
          · intro he
            exact hst (by rw [he]; rfl)
  | true =>
      have hredq : execute ctx q st =
          (if q.table ≠ "" then
            if q.isDictionary = false then
              executeToTable ctx { q with noDelay := true } { q with noDelay := true } st
            else executeToDictionary ctx q.database q.table q.kind q.ifExists q.temporary q.noDDLLock st
          else if q.database ≠ "" then
            executeToDatabase ctx { q with noDelay := true } q.database q.kind q.ifExists true st
          else ⟨st, [], some Err.logical, false⟩) := by
        unfold execute
        rw [hws]
        simp [hcl]
      rw [hredq]
      by_cases htb : q.table = ""
      · by_cases hdbe : q.database = ""
        · rw [if_neg (by simp [htb]), if_neg (by simp [hdbe])]
          simp [unsupportedShape, htb, hdbe]
        · rw [if_neg (by simp [htb]), if_pos (by simp [hdbe])]
          obtain ⟨hiff, hst⟩ := executeToDatabase_unsupported ctx { q with noDelay := true }
              q.database q.kind q.ifExists true st hdbe
          constructor
          · rw [hiff]
            simp [unsupportedShape, htb, hdbe, hcl]
          · intro he
            exact hst he
      · by_cases hdic : q.isDictionary = true
        · rw [if_pos (by simp [htb]), if_neg (by simp [hdic])]
          obtain ⟨hiff, hst⟩ := executeToDictionary_unsupported ctx q.database q.table q.kind
              q.ifExists q.temporary q.noDDLLock st
          constructor
          · rw [hiff]
            simp [unsupportedShape, htb, hdic, hcl]
          · intro he
            exact hst (by rw [he]; rfl)
        · rw [if_pos (by simp [htb]), if_pos (by simp at hdic ⊢; exact hdic)]
          obtain ⟨hiff, hst⟩ := executeToTable_unsupported ctx { q with noDelay := true }
              { q with noDelay := true } st
          constructor
          · rw [hiff]
            simp [unsupportedShape, htb, hdic, hcl]
            tauto
          · intro he
            exact hst (by rw [he]; rfl)

/-- Witness for C6 at a concrete input: TRUNCATE DATABASE D fails with
the unsupported error and leaves the catalog unchanged. -/
theorem C6_witness :
    (execute ctxAll qTruncDbD stFixD).err = some Err.unsupported ∧
    (execute ctxAll qTruncDbD stFixD).st = stFixD :=
  have h := C6_unsupported_exact ctxAll qTruncDbD stFixD
  ⟨h.1.mpr (by decide), h.2 (h.1.mpr (by decide))⟩

/-- Monotonicity of `List.all` along a pointwise implication. -/
theorem allImp (l : List Event) (p q : Event → Bool)
    (h : ∀ e, p e = true → q e = true) : l.all p = true → l.all q = true := by
  simp only [List.all_eq_true]
  intro ha e he
  exact h e (ha e he)

/-- The temporary-table handler emits no child-invocation events. -/
theorem executeToTemporaryTable_noChild (name : String) (k : Kind) (st : St) :
    ((executeToTemporaryTable name k st).trace).all
      (fun e => !isChildDict e && !isChildTable e) = true := by
  unfold executeToTemporaryTable
  cases k <;> cases hfe : findExternal st name <;> simp [isChildDict, isChildTable]

/-- The dictionary handler emits no child-invocation events. -/
theorem executeToDictionary_noChild (ctx : Ctx) (dbn dn : String) (k : Kind)
    (ie it nl : Bool) (st : St) :
    ((executeToDictionary ctx dbn dn k ie it nl st).trace).all
      (fun e => !isChildDict e && !isChildTable e) = true := by
  unfold executeToDictionary
  cases it with
  | true => simp
  | false =>
      cases hdbo : getDb st (if dbn = "" then ctx.currentDatabase else dbn) with
      | none => cases ie <;> cases nl <;> simp_all [isChildDict, isChildTable]
      | some d2 =>
          cases k <;> cases hde : dictExists d2 dn <;> cases ie <;> cases nl <;>
            by_cases hg : ctx.granted AccessType.DROP_DICTIONARY
                (if dbn = "" then ctx.currentDatabase else dbn) (some dn) = true <;>
            simp_all [isChildDict, isChildTable]

set_option maxHeartbeats 3200000 in
/-- The resolved table dispatch emits no child-invocation events beyond
those already in `tr0`. -/
theorem tableDispatch_noChild (ctx : Ctx) (qp q : Query) (dbName : String) (d : Database)
    (t : Table) (st : St) (tr0 : List Event)
    (h0 : tr0.all (fun e => !isChildDict e && !isChildTable e) = true) :
    ((tableDispatch ctx qp q dbName d t st tr0).trace).all
      (fun e => !isChildDict e && !isChildTable e) = true := by
  unfold tableDispatch tablePost
  cases hk : q.kind <;>
    simp only [apply_ite Res.trace] <;>
    split_ifs <;>
    simp_all [List.all_append, isChildDict, isChildTable]

/-- The table handler emits no child-invocation events. -/
theorem executeToTable_noChild (ctx : Ctx) (qp q : Query) (st : St) :
    ((executeToTable ctx qp q st).trace).all
      (fun e => !isChildDict e && !isChildTable e) = true := by
  unfold executeToTable
  by_cases h1 : q.database = "" ∧ (findExternal st q.table).isSome = true
  · rw [if_pos h1]
    exact executeToTemporaryTable_noChild q.table q.kind st
  · rw [if_neg h1]
    cases htmp : q.temporary with
    | true => cases hie : q.ifExists <;> simp_all
    | false =>
        have h0 : (if q.noDDLLock = true then []
            else [Event.acquireGuard
                    (if q.temporary = true ∨ q.database = "" then ctx.currentDatabase else q.database)
                    q.table]).all (fun e => !isChildDict e && !isChildTable e) = true := by
          cases hnl : q.noDDLLock <;> simp [isChildDict, isChildTable]
        cases hdbo : getDb st (if q.temporary = true ∨ q.database = "" then ctx.currentDatabase else q.database) with
        | none =>
            cases hk : q.kind <;> cases hie : q.ifExists <;>
              simp_all [tablePost, apply_ite Res.trace, List.all_append, isChildDict, isChildTable]
        | some d =>
            cases hto : findTable d q.table with
            | none =>
                cases hk : q.kind <;> cases hie : q.ifExists <;>
                  by_cases hA : d.engine = "Atomic" <;>
                  simp_all [tablePost, apply_ite Res.trace, List.all_append, isChildDict, isChildTable]
            | some t =>
                have hdisp := tableDispatch_noChild ctx qp q
                  (if q.temporary = true ∨ q.database = "" then ctx.currentDatabase else q.database) d t st
                  (if q.noDDLLock = true then []
                   else [Event.acquireGuard
                           (if q.temporary = true ∨ q.database = "" then ctx.currentDatabase else q.database)
                           q.table]) h0
                simp_all

/-- Every event of the dictionary loop is either a `childDict` carrying
`ifExists = false` or a non-child event. -/
theorem processDicts_flags (ctx : Ctx) (dbName : String) (k : Kind) :
    ∀ (ns : List String) (st : St),
      ((processDicts ctx dbName k ns st).trace).all
        (fun e => childDictFlagsOk e && !isChildTable e) = true := by
  intro ns
  induction ns with
  | nil => intro st; simp [processDicts]
  | cons n rest ih =>
      intro st
      have hnc := executeToDictionary_noChild ctx dbName n k false false false st
      have h1 : ((executeToDictionary ctx dbName n k false false false st).trace).all
          (fun e => childDictFlagsOk e && !isChildTable e) = true := by
        refine allImp _ _ _ ?_ hnc
        intro e he
        cases e <;> simp_all [childDictFlagsOk, isChildDict, isChildTable]
      have h2 := ih ((executeToDictionary ctx dbName n k false false false st).st)
      unfold processDicts
      cases he : (executeToDictionary ctx dbName n k false false false st).err with
      | none => simp_all [List.all_append, List.all_eq_true, childDictFlagsOk, isChildTable]
      | some e => simp_all [List.all_append, List.all_eq_true, childDictFlagsOk, isChildTable]

/-- Every event of the table loop is either a `childTable` carrying
`ifExists = true` and the parent's `noDelay` or a non-child event. -/
theorem processTables_flags (ctx : Ctx) (qp : Query) (dbName : String) (k : Kind) (nd : Bool) :
    ∀ (ns : List String) (st : St),
      ((processTables ctx qp dbName k nd ns st).trace).all
        (fun e => childTableFlagsOk nd e && !isChildDict e) = true := by
  intro ns
  induction ns with
  | nil => intro st; simp [processTables]
  | cons n rest ih =>
      intro st
      have hnc := executeToTable_noChild ctx qp (childQuery k dbName n nd) st
      have h1 : ((executeToTable ctx qp (childQuery k dbName n nd) st).trace).all
          (fun e => childTableFlagsOk nd e && !isChildDict e) = true := by
        refine allImp _ _ _ ?_ hnc
        intro e he
        cases e <;> simp_all [childTableFlagsOk, isChildDict, isChildTable]
      have h2 := ih ((executeToTable ctx qp (childQuery k dbName n nd) st).st)
      unfold processTables
      cases he : (executeToTable ctx qp (childQuery k dbName n nd) st).err with
      | none => simp_all [List.all_append, List.all_eq_true, childTableFlagsOk, isChildDict]
      | some e => simp_all [List.all_append, List.all_eq_true, childTableFlagsOk, isChildDict]

/-- `dictsBeforeTables` over a prefix free of table-child events. -/
theorem dictsBeforeTables_append (l1 l2 : List Event)
    (h : l1.all (fun e => !isChildTable e) = true) :
    dictsBeforeTables (l1 ++ l2) = dictsBeforeTables l2 := by
  induction l1 with
  | nil => simp
  | cons e l1 ih =>
      cases e <;> simp_all [dictsBeforeTables, isChildTable]

/-- A trace free of dictionary-child events satisfies
`dictsBeforeTables`. -/
theorem dictsBeforeTables_of_noDict (l : List Event)
    (h : l.all (fun e => !isChildDict e) = true) :
    dictsBeforeTables l = true := by
  induction l with
  | nil => simp [dictsBeforeTables]
  | cons e l ih =>
      cases e <;> simp_all [dictsBeforeTables, isChildDict]

/-- The dictionary loop emits no table-child events. -/
theorem processDicts_noTable (ctx : Ctx) (dbName : String) (k : Kind)
    (ns : List String) (st : St) :
    ((processDicts ctx dbName k ns st).trace).all (fun e => !isChildTable e) = true :=
  allImp _ _ _ (fun e h => by simp only [Bool.and_eq_true] at h; exact h.2) (processDicts_flags ctx dbName k ns st)

/-- Dictionary-child events of the dictionary loop all carry
`ifExists = false`. -/
theorem processDicts_dictOk (ctx : Ctx) (dbName : String) (k : Kind)
    (ns : List String) (st : St) :
    ((processDicts ctx dbName k ns st).trace).all childDictFlagsOk = true :=
  allImp _ _ _ (fun e h => by simp only [Bool.and_eq_true] at h; exact h.1) (processDicts_flags ctx dbName k ns st)

/-- The dictionary loop vacuously satisfies the table-child flag check. -/
theorem processDicts_tableOk (ctx : Ctx) (dbName : String) (k : Kind) (nd : Bool)
    (ns : List String) (st : St) :
    ((processDicts ctx dbName k ns st).trace).all (childTableFlagsOk nd) = true :=
  allImp _ _ _ (fun e h => by
    cases e <;> simp_all [childTableFlagsOk, isChildTable])
    (processDicts_noTable ctx dbName k ns st)

/-- The table loop emits no dictionary-child events. -/
theorem processTables_noDict (ctx : Ctx) (qp : Query) (dbName : String) (k : Kind) (nd : Bool)
    (ns : List String) (st : St) :
    ((processTables ctx qp dbName k nd ns st).trace).all (fun e => !isChildDict e) = true :=
  allImp _ _ _ (fun e h => by simp only [Bool.and_eq_true] at h; exact h.2) (processTables_flags ctx qp dbName k nd ns st)

/-- Table-child events of the table loop carry `ifExists = true` and the
parent's `noDelay`. -/
theorem processTables_tableOk (ctx : Ctx) (qp : Query) (dbName : String) (k : Kind) (nd : Bool)
    (ns : List String) (st : St) :
    ((processTables ctx qp dbName k nd ns st).trace).all (childTableFlagsOk nd) = true :=
  allImp _ _ _ (fun e h => by simp only [Bool.and_eq_true] at h; exact h.1) (processTables_flags ctx qp dbName k nd ns st)

/-- The table loop vacuously satisfies the dictionary-child flag check. -/
theorem processTables_dictOk (ctx : Ctx) (qp : Query) (dbName : String) (k : Kind) (nd : Bool)
    (ns : List String) (st : St) :
    ((processTables ctx qp dbName k nd ns st).trace).all childDictFlagsOk = true :=
  allImp _ _ _ (fun e h => by
    cases e <;> simp_all [childDictFlagsOk, isChildDict])
    (processTables_noDict ctx qp dbName k nd ns st)

/-- `List.all` distributes over an if-then-else of traces. -/
theorem List_all_ite {c : Prop} [Decidable c] (l1 l2 : List Event) (f : Event → Bool) :
    (if c then l1 else l2).all f = if c then l1.all f else l2.all f := by
  split_ifs <;> rfl

/-- `dictsBeforeTables` distributes over an if-then-else of traces. -/
theorem dictsBeforeTables_ite {c : Prop} [Decidable c] (l1 l2 : List Event) :
    dictsBeforeTables (if c then l1 else l2) =
      if c then dictsBeforeTables l1 else dictsBeforeTables l2 := by
  split_ifs <;> rfl

/-- A trace free of table-child events satisfies `dictsBeforeTables`. -/
theorem dictsBeforeTables_of_noTable (l : List Event)
    (h : l.all (fun e => !isChildTable e) = true) :
    dictsBeforeTables l = true := by
  induction l with
  | nil => simp [dictsBeforeTables]
  | cons e l ih =>
      cases e <;> simp_all [dictsBeforeTables, isChildTable, isChildDict]

set_option maxHeartbeats 1600000 in
/-- Claim C1, amended: in any recursive database Drop/Detach, every
dictionary-child invocation carries `ifExists = false`, every table-child
invocation carries `ifExists = true` together with the parent's
`noDelay`, and every dictionary child is processed before any table
child. -/
theorem C1_children (ctx : Ctx) (qp : Query) (dbName : String) (kind : Kind)
    (ifExists noDelay : Bool) (st : St) :
    ((executeToDatabase ctx qp dbName kind ifExists noDelay st).trace).all
      childDictFlagsOk = true ∧
    ((executeToDatabase ctx qp dbName kind ifExists noDelay st).trace).all
      (childTableFlagsOk noDelay) = true ∧
    dictsBeforeTables (executeToDatabase ctx qp dbName kind ifExists noDelay st).trace = true := by
  unfold executeToDatabase
  cases hdbo : getDb st dbName with
  | none =>
      cases ifExists <;>
        simp [childDictFlagsOk, childTableFlagsOk, dictsBeforeTables]
  | some d =>
      cases kind with
      | truncate => simp [childDictFlagsOk, childTableFlagsOk, dictsBeforeTables]
      | drop =>
          by_cases hacc : ctx.granted AccessType.DROP_DATABASE dbName none = false
          · simp [hacc, childDictFlagsOk, childTableFlagsOk, dictsBeforeTables]
          · cases hse : d.shouldBeEmptyOnDetach with
            | false =>
                simp_all [apply_ite Res.trace, List_all_ite, dictsBeforeTables_ite,
                  childDictFlagsOk, childTableFlagsOk, dictsBeforeTables]
            | true =>
                have hdF := processDicts_dictOk ctx dbName Kind.drop d.dicts st
                have hdT := processDicts_tableOk ctx dbName Kind.drop noDelay d.dicts st
                have hdN := processDicts_noTable ctx dbName Kind.drop d.dicts st
                have htF := processTables_dictOk ctx qp dbName Kind.drop noDelay
                    (tableNames (processDicts ctx dbName Kind.drop d.dicts st).st dbName)
                    (processDicts ctx dbName Kind.drop d.dicts st).st
                have htT := processTables_tableOk ctx qp dbName Kind.drop noDelay
                    (tableNames (processDicts ctx dbName Kind.drop d.dicts st).st dbName)
                    (processDicts ctx dbName Kind.drop d.dicts st).st
                have htN := processTables_noDict ctx qp dbName Kind.drop noDelay
                    (tableNames (processDicts ctx dbName Kind.drop d.dicts st).st dbName)
                    (processDicts ctx dbName Kind.drop d.dicts st).st
                cases hde : (processDicts ctx dbName Kind.drop d.dicts st).err with
                | some e =>
                    simp_all [List.all_append, dictsBeforeTables, childDictFlagsOk,
                      childTableFlagsOk, dictsBeforeTables_of_noTable]
                | none =>
                    cases hte : (processTables ctx qp dbName Kind.drop noDelay
                        (tableNames (processDicts ctx dbName Kind.drop d.dicts st).st dbName)
                        (processDicts ctx dbName Kind.drop d.dicts st).st).err with
                    | some e =>
                        simp_all [List.all_append, dictsBeforeTables, childDictFlagsOk,
                          childTableFlagsOk, dictsBeforeTables_append,
                          dictsBeforeTables_of_noDict]
                    | none =>
                        simp_all [List.all_append, dictsBeforeTables, childDictFlagsOk,
                          childTableFlagsOk, dictsBeforeTables_append,
                          dictsBeforeTables_of_noDict]
                        all_goals try refine dictsBeforeTables_of_noDict _ ?_
                        all_goals try refine List.all_eq_true.mpr ?_
                        all_goals
                          intro x hx
                          rcases List.mem_append.mp hx with hmem | hmem
                          · simp [htN x hmem]
                          · simp only [List.mem_cons, List.not_mem_nil, or_false] at hmem
                            rcases hmem with rfl | rfl <;> rfl
      | detach =>
          by_cases hacc : ctx.granted AccessType.DROP_DATABASE dbName none = false
          · simp [hacc, childDictFlagsOk, childTableFlagsOk, dictsBeforeTables]
          · cases hse : d.shouldBeEmptyOnDetach with
            | false =>
                simp_all [apply_ite Res.trace, List_all_ite, dictsBeforeTables_ite,
                  childDictFlagsOk, childTableFlagsOk, dictsBeforeTables]
            | true =>
                have hdF := processDicts_dictOk ctx dbName Kind.detach d.dicts st
                have hdT := processDicts_tableOk ctx dbName Kind.detach noDelay d.dicts st
                have hdN := processDicts_noTable ctx dbName Kind.detach d.dicts st
                have htF := processTables_dictOk ctx qp dbName Kind.detach noDelay
                    (tableNames (processDicts ctx dbName Kind.detach d.dicts st).st dbName)
                    (processDicts ctx dbName Kind.detach d.dicts st).st
                have htT := processTables_tableOk ctx qp dbName Kind.detach noDelay
                    (tableNames (processDicts ctx dbName Kind.detach d.dicts st).st dbName)
                    (processDicts ctx dbName Kind.detach d.dicts st).st
                have htN := processTables_noDict ctx qp dbName Kind.detach noDelay
                    (tableNames (processDicts ctx dbName Kind.detach d.dicts st).st dbName)
                    (processDicts ctx dbName Kind.detach d.dicts st).st
                cases hde : (processDicts ctx dbName Kind.detach d.dicts st).err with
                | some e =>
                    simp_all [List.all_append, dictsBeforeTables, childDictFlagsOk,
                      childTableFlagsOk, dictsBeforeTables_of_noTable]
                | none =>
                    cases hte : (processTables ctx qp dbName Kind.detach noDelay
                        (tableNames (processDicts ctx dbName Kind.detach d.dicts st).st dbName)
                        (processDicts ctx dbName Kind.detach d.dicts st).st).err with
                    | some e =>
                        simp_all [List.all_append, dictsBeforeTables, childDictFlagsOk,
                          childTableFlagsOk, dictsBeforeTables_append,
                          dictsBeforeTables_of_noDict]
                    | none =>
                        simp_all [apply_ite Res.trace, List_all_ite, dictsBeforeTables_ite,
                          List.all_append, dictsBeforeTables, childDictFlagsOk,
                          childTableFlagsOk, dictsBeforeTables_append,
                          dictsBeforeTables_of_noDict]
                        all_goals try split_ifs
                        all_goals try refine dictsBeforeTables_of_noDict _ ?_
                        all_goals try refine List.all_eq_true.mpr ?_
                        all_goals
                          intro x hx
                          rcases List.mem_append.mp hx with hmem | hmem
                          · simp [htN x hmem]
                          · simp only [List.mem_cons, List.not_mem_nil, or_false] at hmem
                            rcases hmem with rfl | rfl <;> rfl

/-- Catalog lookup after an update: only the updated name changes, by the
update function. -/
theorem getDb_update (st : St) (n : String) (f : Database → Database) (m : String) :
    getDb (updateDb st n f) m = if m = n then (getDb st m).map f else getDb st m := by
  unfold getDb updateDb
  rcases st with ⟨cat, ext⟩
  dsimp only
  induction cat with
  | nil => by_cases h : m = n <;> simp [h]
  | cons p rest ih =>
      by_cases h1 : p.1 = n <;> by_cases h2 : p.1 = m <;>
        by_cases h3 : m = n <;>
        simp_all [List.find?_cons]
  
/-- Removing an external table does not touch the catalog. -/
theorem getDb_removeExternal (st : St) (x : String) (m : String) :
    getDb (removeExternal st x) m = getDb st m := rfl

/-- `findTable` after filtering out one name: the filtered name is gone,
all others are unchanged. -/
theorem findTable_filter (d : Database) (n x : String) :
    findTable { d with tables := d.tables.filter (fun p => !(p.1 == n)) } x =
      if x = n then none else findTable d x := by
  unfold findTable
  dsimp only
  induction d.tables with
  | nil => by_cases h : x = n <;> simp [h]
  | cons p rest ih =>
      by_cases h1 : p.1 = n <;> by_cases h2 : p.1 = x <;> by_cases h3 : x = n <;>
        simp_all [List.find?_cons]

/-- `findTableIn` after `removeTableFrom`. -/
theorem findTableIn_removeTableFrom (st : St) (db n nm x : String) :
    findTableIn (removeTableFrom st db n) nm x =
      if nm = db ∧ x = n then none else findTableIn st nm x := by
  unfold findTableIn removeTableFrom
  rw [getDb_update]
  by_cases h1 : nm = db
  · cases hdbo : getDb st nm with
    | none => simp [h1, hdbo]
    | some d =>
        simp [h1, hdbo, findTable_filter]
  · simp [h1]

/-- `removeDictFrom` does not change any table registry. -/
theorem findTableIn_removeDictFrom (st : St) (db dn nm x : String) :
    findTableIn (removeDictFrom st db dn) nm x = findTableIn st nm x := by
  unfold findTableIn removeDictFrom
  rw [getDb_update]
  by_cases h1 : nm = db
  · cases hdbo : getDb st nm with
    | none => simp [h1, hdbo]
    | some d => simp [h1, hdbo, findTable]
  · simp [h1]

/-- `dictExists` after filtering one name out of the dictionary
registry. -/
theorem dictExists_filter (d : Database) (dn x : String) :
    dictExists { d with dicts := d.dicts.filter (fun n => !(n == dn)) } x =
      if x = dn then false else dictExists d x := by
  unfold dictExists
  dsimp only
  induction d.dicts with
  | nil => by_cases h : x = dn <;> simp [h]
  | cons p rest ih =>
      by_cases h1 : p = dn <;> by_cases h2 : p = x <;> by_cases h3 : x = dn <;>
        simp_all

/-- `dictExistsIn` after `removeDictFrom`. -/
theorem dictExistsIn_removeDictFrom (st : St) (db dn nm x : String) :
    dictExistsIn (removeDictFrom st db dn) nm x =
      if nm = db ∧ x = dn then false else dictExistsIn st nm x := by
  unfold dictExistsIn removeDictFrom
  rw [getDb_update]
  by_cases h1 : nm = db
  · cases hdbo : getDb st nm with
    | none => simp [h1, hdbo]
    | some d => simp [h1, hdbo, dictExists_filter]
  · simp [h1]

/-- `removeTableFrom` does not change any dictionary registry. -/
theorem dictExistsIn_removeTableFrom (st : St) (db n nm x : String) :
    dictExistsIn (removeTableFrom st db n) nm x = dictExistsIn st nm x := by
  unfold dictExistsIn removeTableFrom
  rw [getDb_update]
  by_cases h1 : nm = db
  · cases hdbo : getDb st nm with
    | none => simp [h1, hdbo]
    | some d => simp [h1, hdbo, dictExists]
  · simp [h1]

/-- Database presence and engine after `removeTableFrom`. -/
theorem getDb_removeTableFrom_engine (st : St) (db n nm : String) :
    (getDb (removeTableFrom st db n) nm).map Database.engine =
      (getDb st nm).map Database.engine := by
  unfold removeTableFrom
  rw [getDb_update]
  by_cases h1 : nm = db
  · cases hdbo : getDb st nm <;> simp [h1, hdbo]
  · simp [h1]

/-- Database presence and engine after `removeDictFrom`. -/
theorem getDb_removeDictFrom_engine (st : St) (db dn nm : String) :
    (getDb (removeDictFrom st db dn) nm).map Database.engine =
      (getDb st nm).map Database.engine := by
  unfold removeDictFrom
  rw [getDb_update]
  by_cases h1 : nm = db
  · cases hdbo : getDb st nm <;> simp [h1, hdbo]
  · simp [h1]

/-- `shouldBeEmptyOnDetach` is stable under `removeTableFrom` and
`removeDictFrom` (both only touch child registries). -/
theorem getDb_removeTableFrom_isSome (st : St) (db n nm : String) :
    (getDb (removeTableFrom st db n) nm).isSome = (getDb st nm).isSome := by
  unfold removeTableFrom
  rw [getDb_update]
  by_cases h1 : nm = db
  · cases hdbo : getDb st nm <;> simp [h1, hdbo]
  · simp [h1]

/-- Database presence after `removeDictFrom`. -/
theorem getDb_removeDictFrom_isSome (st : St) (db dn nm : String) :
    (getDb (removeDictFrom st db dn) nm).isSome = (getDb st nm).isSome := by
  unfold removeDictFrom
  rw [getDb_update]
  by_cases h1 : nm = db
  · cases hdbo : getDb st nm <;> simp [h1, hdbo]
  · simp [h1]

/-- The temporary-table handler either leaves the state unchanged or
removes exactly its target from the session registry. -/
theorem executeToTemporaryTable_st_cases (name : String) (k : Kind) (st : St) :
    (executeToTemporaryTable name k st).st = st ∨
    (executeToTemporaryTable name k st).st = removeExternal st name := by
  unfold executeToTemporaryTable
  cases k <;> cases hfe : findExternal st name <;> simp

/-- The resolved dispatch either leaves the catalog unchanged or removes
exactly its target table. -/
theorem tableDispatch_st_cases (ctx : Ctx) (qp q : Query) (dbName : String) (d : Database)
    (t : Table) (st : St) (tr0 : List Event) :
    (tableDispatch ctx qp q dbName d t st tr0).st = st ∨
    (tableDispatch ctx qp q dbName d t st tr0).st = removeTableFrom st dbName q.table := by
  unfold tableDispatch
  cases hk : q.kind <;>
    simp only [apply_ite Res.st, tablePost_st] <;>
    split_ifs <;> simp [tablePost_st]

/-- The table handler either leaves the state unchanged, removes exactly
its resolved target table, or removes exactly its target from the session
registry. -/
theorem executeToTable_st_cases (ctx : Ctx) (qp q : Query) (st : St) :
    (executeToTable ctx qp q st).st = st ∨
    (executeToTable ctx qp q st).st =
      removeTableFrom st
        (if q.temporary = true ∨ q.database = "" then ctx.currentDatabase else q.database)
        q.table ∨
    (executeToTable ctx qp q st).st = removeExternal st q.table := by
  unfold executeToTable
  by_cases h1 : q.database = "" ∧ (findExternal st q.table).isSome = true
  · rw [if_pos h1]
    rcases executeToTemporaryTable_st_cases q.table q.kind st with h | h
    · exact Or.inl h
    · exact Or.inr (Or.inr h)
  · rw [if_neg h1]
    cases htmp : q.temporary with
    | true => cases hie : q.ifExists <;> simp_all
    | false =>
        cases hdbo : getDb st (if q.temporary = true ∨ q.database = "" then ctx.currentDatabase else q.database) with
        | none => cases hie : q.ifExists <;> simp_all [tablePost_st]
        | some d =>
            cases hto : findTable d q.table with
            | none => cases hie : q.ifExists <;> simp_all [tablePost_st]
            | some t =>
                have h := tableDispatch_st_cases ctx qp q
                    (if q.temporary = true ∨ q.database = "" then ctx.currentDatabase else q.database) d t st
                    (if q.noDDLLock = true then []
                     else [Event.acquireGuard
                             (if q.temporary = true ∨ q.database = "" then ctx.currentDatabase else q.database)
                             q.table])
                simp_all
                tauto

/-- The dictionary handler either leaves the state unchanged or removes
exactly its target dictionary. -/
theorem executeToDictionary_st_cases (ctx : Ctx) (dbn dn : String) (k : Kind)
    (ie it nl : Bool) (st : St) :
    (executeToDictionary ctx dbn dn k ie it nl st).st = st ∨
    (executeToDictionary ctx dbn dn k ie it nl st).st =
      removeDictFrom st (if dbn = "" then ctx.currentDatabase else dbn) dn := by
  unfold executeToDictionary
  cases it with
  | true => simp
  | false =>
      cases hdbo : getDb st (if dbn = "" then ctx.currentDatabase else dbn) with
      | none => cases ie <;> simp_all
      | some d2 =>
          cases k <;> cases hde : dictExists d2 dn <;> cases ie <;>
            by_cases hg : ctx.granted AccessType.DROP_DICTIONARY
                (if dbn = "" then ctx.currentDatabase else dbn) (some dn) = true <;>
            simp_all

/-- On a success of the resolved dispatch for Drop/Detach against a
non-Replicated engine, the target table is removed from the catalog. -/
theorem tableDispatch_removes (ctx : Ctx) (qp q : Query) (dbName : String) (d : Database)
    (t : Table) (st : St) (tr0 : List Event)
    (hk : q.kind ≠ Kind.truncate) (heng : d.engine ≠ "Replicated")
    (herr : (tableDispatch ctx qp q dbName d t st tr0).err = none) :
    (tableDispatch ctx qp q dbName d t st tr0).st = removeTableFrom st dbName q.table := by
  unfold tableDispatch at herr ⊢
  cases hkk : q.kind <;>
    simp only [hkk, apply_ite Res.st, apply_ite Res.err, tablePost_st, tablePost_err] at herr ⊢ <;>
    split_ifs at herr ⊢ <;>
    simp_all

/-- A successful non-temporary table Drop/Detach against a non-Replicated
database leaves no table under the target name. -/
theorem executeToTable_removes (ctx : Ctx) (qp q : Query) (st : St)
    (htmp : q.temporary = false) (hdb : q.database ≠ "")
    (hk : q.kind ≠ Kind.truncate)
    (heng : (getDb st q.database).map Database.engine ≠ some "Replicated")
    (herr : (executeToTable ctx qp q st).err = none) :
    findTableIn (executeToTable ctx qp q st).st q.database q.table = none := by
  have h2 : ¬(q.temporary = true ∨ q.database = "") := by
    rintro (h | h)
    · rw [htmp] at h
      exact Bool.false_ne_true h
    · exact hdb h
  have h1 : ¬(q.database = "" ∧ (findExternal st q.table).isSome = true) :=
    fun h => hdb h.1
  unfold executeToTable at herr ⊢
  rw [if_neg h1, if_neg h2, htmp, if_neg Bool.false_ne_true] at herr ⊢
  cases hdbo : getDb st q.database with
  | none =>
      cases hie : q.ifExists <;>
        simp_all [tablePost_st, tablePost_err, findTableIn]
  | some d =>
      cases hto : findTable d q.table with
      | none =>
          cases hie : q.ifExists <;>
            simp_all [tablePost_st, tablePost_err, findTableIn]
      | some t =>
          have heng2 : d.engine ≠ "Replicated" := by
            intro hcon
            rw [hdbo] at heng
            simp [hcon] at heng
          have hrm := tableDispatch_removes ctx qp q q.database d t st
              (if q.noDDLLock = true then [] else [Event.acquireGuard q.database q.table]) hk heng2
          simp_all [findTableIn_removeTableFrom]

/-- A failing table child with `ifExists = true` implies its target was
present (and, errors leaving the state unchanged, stays present). -/
theorem executeToTable_err_present (ctx : Ctx) (qp q : Query) (st : St)
    (hie : q.ifExists = true) (htmp : q.temporary = false) (hdb : q.database ≠ "")
    (herr : (executeToTable ctx qp q st).err.isSome = true) :
    (findTableIn st q.database q.table).isSome = true := by
  have h2 : ¬(q.temporary = true ∨ q.database = "") := by
    rintro (h | h)
    · rw [htmp] at h
      exact Bool.false_ne_true h
    · exact hdb h
  have h1 : ¬(q.database = "" ∧ (findExternal st q.table).isSome = true) :=
    fun h => hdb h.1
  unfold executeToTable at herr
  rw [if_neg h1, if_neg h2, htmp, if_neg Bool.false_ne_true] at herr
  cases hdbo : getDb st q.database with
  | none => simp_all [tablePost_err]
  | some d =>
      cases hto : findTable d q.table with
      | none => simp_all [tablePost_err]
      | some t => simp [findTableIn, hdbo, hto]

/-- Removing a session table does not affect the catalog. -/
theorem findTableIn_removeExternal (st : St) (y nm x : String) :
    findTableIn (removeExternal st y) nm x = findTableIn st nm x := rfl

/-- A table-handler call never changes other tables. -/
theorem executeToTable_preserves_other (ctx : Ctx) (qp q : Query) (st : St)
    (nm x : String) (hx : x ≠ q.table) :
    findTableIn (executeToTable ctx qp q st).st nm x = findTableIn st nm x := by
  rcases executeToTable_st_cases ctx qp q st with h | h | h <;>
    rw [h] <;> simp [findTableIn_removeTableFrom, findTableIn_removeExternal, hx]

/-- A table-handler call never resurrects a missing table. -/
theorem executeToTable_none_mono (ctx : Ctx) (qp q : Query) (st : St) (nm x : String)
    (h0 : findTableIn st nm x = none) :
    findTableIn (executeToTable ctx qp q st).st nm x = none := by
  rcases executeToTable_st_cases ctx qp q st with h | h | h <;> rw [h] <;>
    simp [findTableIn_removeTableFrom, findTableIn_removeExternal, h0]

/-- A table-handler call preserves every database entry and engine. -/
theorem executeToTable_engine (ctx : Ctx) (qp q : Query) (st : St) (nm : String) :
    (getDb (executeToTable ctx qp q st).st nm).map Database.engine =
      (getDb st nm).map Database.engine := by
  rcases executeToTable_st_cases ctx qp q st with h | h | h <;>
    simp [h, getDb_removeTableFrom_engine, getDb_removeExternal]

/-- A table-handler call preserves database presence. -/
theorem executeToTable_isSome (ctx : Ctx) (qp q : Query) (st : St) (nm : String) :
    (getDb (executeToTable ctx qp q st).st nm).isSome = (getDb st nm).isSome := by
  rcases executeToTable_st_cases ctx qp q st with h | h | h <;>
    simp [h, getDb_removeTableFrom_isSome, getDb_removeExternal]

/-- A dictionary-handler call never changes any table registry. -/
theorem executeToDictionary_preserves_tables (ctx : Ctx) (dbn dn : String) (k : Kind)
    (ie it nl : Bool) (st : St) (nm x : String) :
    findTableIn (executeToDictionary ctx dbn dn k ie it nl st).st nm x =
      findTableIn st nm x := by
  rcases executeToDictionary_st_cases ctx dbn dn k ie it nl st with h | h <;>
    simp [h, findTableIn_removeDictFrom]

/-- A dictionary-handler call preserves every database entry and engine. -/
theorem executeToDictionary_engine (ctx : Ctx) (dbn dn : String) (k : Kind)
    (ie it nl : Bool) (st : St) (nm : String) :
    (getDb (executeToDictionary ctx dbn dn k ie it nl st).st nm).map Database.engine =
      (getDb st nm).map Database.engine := by
  rcases executeToDictionary_st_cases ctx dbn dn k ie it nl st with h | h <;>
    simp [h, getDb_removeDictFrom_engine]

/-- A dictionary-handler call preserves database presence. -/
theorem executeToDictionary_isSome (ctx : Ctx) (dbn dn : String) (k : Kind)
    (ie it nl : Bool) (st : St) (nm : String) :
    (getDb (executeToDictionary ctx dbn dn k ie it nl st).st nm).isSome =
      (getDb st nm).isSome := by
  rcases executeToDictionary_st_cases ctx dbn dn k ie it nl st with h | h <;>
    simp [h, getDb_removeDictFrom_isSome]

/-- A dictionary-handler call never changes other dictionaries. -/
theorem executeToDictionary_preserves_other (ctx : Ctx) (dbn dn : String) (k : Kind)
    (ie it nl : Bool) (st : St) (nm x : String) (hx : x ≠ dn) :
    dictExistsIn (executeToDictionary ctx dbn dn k ie it nl st).st nm x =
      dictExistsIn st nm x := by
  rcases executeToDictionary_st_cases ctx dbn dn k ie it nl st with h | h <;>
    simp [h, dictExistsIn_removeDictFrom, hx]

/-- A dictionary-handler call never resurrects a missing dictionary. -/
theorem executeToDictionary_dict_none_mono (ctx : Ctx) (dbn dn : String) (k : Kind)
    (ie it nl : Bool) (st : St) (nm x : String)
    (h0 : dictExistsIn st nm x = false) :
    dictExistsIn (executeToDictionary ctx dbn dn k ie it nl st).st nm x = false := by
  rcases executeToDictionary_st_cases ctx dbn dn k ie it nl st with h | h <;>
    simp [h, dictExistsIn_removeDictFrom, h0]

/-- A successful Drop/Detach dictionary child (`ifExists = false`)
removes its dictionary. -/
theorem executeToDictionary_removes (ctx : Ctx) (dbn dn : String) (k : Kind) (nl : Bool)
    (st : St) (hdb : dbn ≠ "") (hk : k ≠ Kind.truncate)
    (herr : (executeToDictionary ctx dbn dn k false false nl st).err = none) :
    dictExistsIn (executeToDictionary ctx dbn dn k false false nl st).st dbn dn = false := by
  unfold executeToDictionary at herr ⊢
  rw [if_neg Bool.false_ne_true] at herr ⊢
  rw [if_neg hdb] at herr ⊢
  cases hdbo : getDb st dbn with
  | none => simp_all
  | some d2 =>
      cases k <;> cases hde : dictExists d2 dn <;>
        by_cases hg : ctx.granted AccessType.DROP_DICTIONARY dbn (some dn) = true <;>
        simp_all [dictExistsIn_removeDictFrom]

/-- Error of the table loop over a split list. -/
theorem processTables_append_err (ctx : Ctx) (qp : Query) (dbName : String) (k : Kind)
    (nd : Bool) (l1 l2 : List String) : ∀ st : St,
    (processTables ctx qp dbName k nd (l1 ++ l2) st).err =
      (match (processTables ctx qp dbName k nd l1 st).err with
       | some e => some e
       | none => (processTables ctx qp dbName k nd l2
           (processTables ctx qp dbName k nd l1 st).st).err) := by
  induction l1 with
  | nil => intro st; simp [processTables]
  | cons n rest ih =>
      intro st
      cases he : (executeToTable ctx qp (childQuery k dbName n nd) st).err with
      | some e =>
          have hE : ∀ l : List String,
              (processTables ctx qp dbName k nd (n :: l) st).err = some e := by
            intro l
            conv_lhs => rw [processTables]
            simp [he]
          rw [List.cons_append, hE (rest ++ l2), hE rest]
      | none =>
          have hE : ∀ l : List String,
              (processTables ctx qp dbName k nd (n :: l) st).err =
              (processTables ctx qp dbName k nd l
                  (executeToTable ctx qp (childQuery k dbName n nd) st).st).err := by
            intro l
            conv_lhs => rw [processTables]
            simp [he]
          have hS : ∀ l : List String,
              (processTables ctx qp dbName k nd (n :: l) st).st =
              (processTables ctx qp dbName k nd l
                  (executeToTable ctx qp (childQuery k dbName n nd) st).st).st := by
            intro l
            conv_lhs => rw [processTables]
            simp [he]
          rw [List.cons_append, hE (rest ++ l2), ih, hE rest, hS rest]

/-- State of the table loop over a split list. -/
theorem processTables_append_st (ctx : Ctx) (qp : Query) (dbName : String) (k : Kind)
    (nd : Bool) (l1 l2 : List String) : ∀ st : St,
    (processTables ctx qp dbName k nd (l1 ++ l2) st).st =
      (match (processTables ctx qp dbName k nd l1 st).err with
       | some _ => (processTables ctx qp dbName k nd l1 st).st
       | none => (processTables ctx qp dbName k nd l2
           (processTables ctx qp dbName k nd l1 st).st).st) := by
  induction l1 with
  | nil => intro st; simp [processTables]
  | cons n rest ih =>
      intro st
      cases he : (executeToTable ctx qp (childQuery k dbName n nd) st).err with
      | some e =>
          have hE : ∀ l : List String,
              (processTables ctx qp dbName k nd (n :: l) st).err = some e := by
            intro l
            conv_lhs => rw [processTables]
            simp [he]
          have hS : ∀ l : List String,
              (processTables ctx qp dbName k nd (n :: l) st).st =
              (executeToTable ctx qp (childQuery k dbName n nd) st).st := by
            intro l
            conv_lhs => rw [processTables]
            simp [he]
          rw [List.cons_append, hS (rest ++ l2), hE rest, hS rest]
      | none =>
          have hE : ∀ l : List String,
              (processTables ctx qp dbName k nd (n :: l) st).err =
              (processTables ctx qp dbName k nd l
                  (executeToTable ctx qp (childQuery k dbName n nd) st).st).err := by
            intro l
            conv_lhs => rw [processTables]
            simp [he]
          have hS : ∀ l : List String,
              (processTables ctx qp dbName k nd (n :: l) st).st =
              (processTables ctx qp dbName k nd l
                  (executeToTable ctx qp (childQuery k dbName n nd) st).st).st := by
            intro l
            conv_lhs => rw [processTables]
            simp [he]
          rw [List.cons_append, hS (rest ++ l2), ih, hE rest, hS rest]

/-- Error of the dictionary loop over a split list. -/
theorem processDicts_append_err (ctx : Ctx) (dbName : String) (k : Kind)
    (l1 l2 : List String) : ∀ st : St,
    (processDicts ctx dbName k (l1 ++ l2) st).err =
      (match (processDicts ctx dbName k l1 st).err with
       | some e => some e
       | none => (processDicts ctx dbName k l2 (processDicts ctx dbName k l1 st).st).err) := by
  induction l1 with
  | nil => intro st; simp [processDicts]
  | cons n rest ih =>
      intro st
      cases he : (executeToDictionary ctx dbName n k false false false st).err with
      | some e =>
          have hE : ∀ l : List String,
              (processDicts ctx dbName k (n :: l) st).err = some e := by
            intro l
            conv_lhs => rw [processDicts]
            simp [he]
          rw [List.cons_append, hE (rest ++ l2), hE rest]
      | none =>
          have hE : ∀ l : List String,
              (processDicts ctx dbName k (n :: l) st).err =
              (processDicts ctx dbName k l
                  (executeToDictionary ctx dbName n k false false false st).st).err := by
            intro l
            conv_lhs => rw [processDicts]
            simp [he]
          have hS : ∀ l : List String,
              (processDicts ctx dbName k (n :: l) st).st =
              (processDicts ctx dbName k l
                  (executeToDictionary ctx dbName n k false false false st).st).st := by
            intro l
            conv_lhs => rw [processDicts]
            simp [he]
          rw [List.cons_append, hE (rest ++ l2), ih, hE rest, hS rest]

/-- State of the dictionary loop over a split list. -/
theorem processDicts_append_st (ctx : Ctx) (dbName : String) (k : Kind)
    (l1 l2 : List String) : ∀ st : St,
    (processDicts ctx dbName k (l1 ++ l2) st).st =
      (match (processDicts ctx dbName k l1 st).err with
       | some _ => (processDicts ctx dbName k l1 st).st
       | none => (processDicts ctx dbName k l2 (processDicts ctx dbName k l1 st).st).st) := by
  induction l1 with
  | nil => intro st; simp [processDicts]
  | cons n rest ih =>
      intro st
      cases he : (executeToDictionary ctx dbName n k false false false st).err with
      | some e =>
          have hE : ∀ l : List String,
              (processDicts ctx dbName k (n :: l) st).err = some e := by
            intro l
            conv_lhs => rw [processDicts]
            simp [he]
          have hS : ∀ l : List String,
              (processDicts ctx dbName k (n :: l) st).st =
              (executeToDictionary ctx dbName n k false false false st).st := by
            intro l
            conv_lhs => rw [processDicts]
            simp [he]
          rw [List.cons_append, hS (rest ++ l2), hE rest, hS rest]
      | none =>
          have hE : ∀ l : List String,
              (processDicts ctx dbName k (n :: l) st).err =
              (processDicts ctx dbName k l
                  (executeToDictionary ctx dbName n k false false false st).st).err := by
            intro l
            conv_lhs => rw [processDicts]
            simp [he]
          have hS : ∀ l : List String,
              (processDicts ctx dbName k (n :: l) st).st =
              (processDicts ctx dbName k l
                  (executeToDictionary ctx dbName n k false false false st).st).st := by
            intro l
            conv_lhs => rw [processDicts]
            simp [he]
          rw [List.cons_append, hS (rest ++ l2), ih, hE rest, hS rest]

/-- The table loop does not touch tables outside the processed list. -/
theorem processTables_preserve_other (ctx : Ctx) (qp : Query) (dbName : String) (k : Kind)
    (nd : Bool) : ∀ (ns : List String) (st : St) (nm x : String), x ∉ ns →
    findTableIn (processTables ctx qp dbName k nd ns st).st nm x = findTableIn st nm x := by
  intro ns
  induction ns with
  | nil => intro st nm x _; simp [processTables]
  | cons n rest ih =>
      intro st nm x hx
      have hxn : x ≠ n := fun hc => hx (by simp [hc])
      have hxr : x ∉ rest := fun hc => hx (by simp [hc])
      unfold processTables
      cases he : (executeToTable ctx qp (childQuery k dbName n nd) st).err with
      | some e =>
          have hst := (executeToTable_unsupported ctx qp (childQuery k dbName n nd) st).2
            (by simp [he])
          simp [he, hst]
      | none =>
          have h1 := executeToTable_preserves_other ctx qp (childQuery k dbName n nd) st nm x hxn
          simp [he, ih _ nm x hxr, h1]

/-- The table loop never resurrects a missing table. -/
theorem processTables_none_mono (ctx : Ctx) (qp : Query) (dbName : String) (k : Kind)
    (nd : Bool) : ∀ (ns : List String) (st : St) (nm x : String),
    findTableIn st nm x = none →
    findTableIn (processTables ctx qp dbName k nd ns st).st nm x = none := by
  intro ns
  induction ns with
  | nil => intro st nm x h; simpa [processTables] using h
  | cons n rest ih =>
      intro st nm x h
      unfold processTables
      cases he : (executeToTable ctx qp (childQuery k dbName n nd) st).err with
      | some e =>
          have hst := (executeToTable_unsupported ctx qp (childQuery k dbName n nd) st).2
            (by simp [he])
          simp [he, hst, h]
      | none =>
          have h1 := executeToTable_none_mono ctx qp (childQuery k dbName n nd) st nm x h
          simp [he, ih _ nm x h1]

/-- The table loop preserves every database entry and engine. -/
theorem processTables_engine (ctx : Ctx) (qp : Query) (dbName : String) (k : Kind)
    (nd : Bool) : ∀ (ns : List String) (st : St) (nm : String),
    (getDb (processTables ctx qp dbName k nd ns st).st nm).map Database.engine =
      (getDb st nm).map Database.engine := by
  intro ns
  induction ns with
  | nil => intro st nm; simp [processTables]
  | cons n rest ih =>
      intro st nm
      unfold processTables
      cases he : (executeToTable ctx qp (childQuery k dbName n nd) st).err with
      | some e =>
          have hst := (executeToTable_unsupported ctx qp (childQuery k dbName n nd) st).2
            (by simp [he])
          simp [he, hst]
      | none =>
          have h1 := executeToTable_engine ctx qp (childQuery k dbName n nd) st nm
          simp [he, ih _ nm, h1]

/-- The table loop preserves database presence. -/
theorem processTables_isSome (ctx : Ctx) (qp : Query) (dbName : String) (k : Kind)
    (nd : Bool) : ∀ (ns : List String) (st : St) (nm : String),
    (getDb (processTables ctx qp dbName k nd ns st).st nm).isSome =
      (getDb st nm).isSome := by
  intro ns
  induction ns with
  | nil => intro st nm; simp [processTables]
  | cons n rest ih =>
      intro st nm
      unfold processTables
      cases he : (executeToTable ctx qp (childQuery k dbName n nd) st).err with
      | some e =>
          have hst := (executeToTable_unsupported ctx qp (childQuery k dbName n nd) st).2
            (by simp [he])
          simp [he, hst]
      | none =>
          have h1 := executeToTable_isSome ctx qp (childQuery k dbName n nd) st nm
          simp [he, ih _ nm, h1]

/-- A fully successful table loop over Drop/Detach children against a
non-Replicated database removes every processed table. -/
theorem processTables_removed (ctx : Ctx) (qp : Query) (dbName : String) (k : Kind)
    (nd : Bool) (hk : k ≠ Kind.truncate) (hdb : dbName ≠ "") :
    ∀ (ns : List String) (st : St),
    (getDb st dbName).map Database.engine ≠ some "Replicated" →
    (processTables ctx qp dbName k nd ns st).err = none →
    ∀ x ∈ ns, findTableIn (processTables ctx qp dbName k nd ns st).st dbName x = none := by
  intro ns
  induction ns with
  | nil => intro st _ _ x hx; simp at hx
  | cons n rest ih =>
      intro st heng herr x hx
      unfold processTables at herr ⊢
      cases he : (executeToTable ctx qp (childQuery k dbName n nd) st).err with
      | some e => simp [he] at herr
      | none =>
          have heng2 : (getDb (executeToTable ctx qp (childQuery k dbName n nd) st).st dbName).map
              Database.engine ≠ some "Replicated" := by
            rw [executeToTable_engine]
            exact heng
          simp only [he] at herr ⊢
          rcases List.mem_cons.mp hx with rfl | hxr
          · have hrm := executeToTable_removes ctx qp (childQuery k dbName x nd) st rfl hdb hk
              heng he
            have := processTables_none_mono ctx qp dbName k nd rest
              (executeToTable ctx qp (childQuery k dbName x nd) st).st dbName x hrm
            simpa using this
          · have := ih (executeToTable ctx qp (childQuery k dbName n nd) st).st heng2
              (by simpa using herr) x hxr
            simpa using this

/-- The dictionary loop does not touch any table registry. -/
theorem processDicts_preserve_tables (ctx : Ctx) (dbName : String) (k : Kind) :
    ∀ (ns : List String) (st : St) (nm x : String),
    findTableIn (processDicts ctx dbName k ns st).st nm x = findTableIn st nm x := by
  intro ns
  induction ns with
  | nil => intro st nm x; simp [processDicts]
  | cons n rest ih =>
      intro st nm x
      unfold processDicts
      cases he : (executeToDictionary ctx dbName n k false false false st).err with
      | some e =>
          have hst := (executeToDictionary_unsupported ctx dbName n k false false false st).2
            (by simp [he])
          simp [he, hst]
      | none =>
          have h1 := executeToDictionary_preserves_tables ctx dbName n k false false false st nm x
          simp [he, ih _ nm x, h1]

/-- The dictionary loop preserves every database entry and engine. -/
theorem processDicts_engine (ctx : Ctx) (dbName : String) (k : Kind) :
    ∀ (ns : List String) (st : St) (nm : String),
    (getDb (processDicts ctx dbName k ns st).st nm).map Database.engine =
      (getDb st nm).map Database.engine := by
  intro ns
  induction ns with
  | nil => intro st nm; simp [processDicts]
  | cons n rest ih =>
      intro st nm
      unfold processDicts
      cases he : (executeToDictionary ctx dbName n k false false false st).err with
      | some e =>
          have hst := (executeToDictionary_unsupported ctx dbName n k false false false st).2
            (by simp [he])
          simp [he, hst]
      | none =>
          have h1 := executeToDictionary_engine ctx dbName n k false false false st nm
          simp [he, ih _ nm, h1]

/-- The dictionary loop preserves database presence. -/
theorem processDicts_isSome (ctx : Ctx) (dbName : String) (k : Kind) :
    ∀ (ns : List String) (st : St) (nm : String),
    (getDb (processDicts ctx dbName k ns st).st nm).isSome = (getDb st nm).isSome := by
  intro ns
  induction ns with
  | nil => intro st nm; simp [processDicts]
  | cons n rest ih =>
      intro st nm
      unfold processDicts
      cases he : (executeToDictionary ctx dbName n k false false false st).err with
      | some e =>
          have hst := (executeToDictionary_unsupported ctx dbName n k false false false st).2
            (by simp [he])
          simp [he, hst]
      | none =>
          have h1 := executeToDictionary_isSome ctx dbName n k false false false st nm
          simp [he, ih _ nm, h1]

/-- The dictionary loop does not touch dictionaries outside the processed
list. -/
theorem processDicts_preserve_other (ctx : Ctx) (dbName : String) (k : Kind) :
    ∀ (ns : List String) (st : St) (nm x : String), x ∉ ns →
    dictExistsIn (processDicts ctx dbName k ns st).st nm x = dictExistsIn st nm x := by
  intro ns
  induction ns with
  | nil => intro st nm x _; simp [processDicts]
  | cons n rest ih =>
      intro st nm x hx
      have hxn : x ≠ n := fun hc => hx (by simp [hc])
      have hxr : x ∉ rest := fun hc => hx (by simp [hc])
      unfold processDicts
      cases he : (executeToDictionary ctx dbName n k false false false st).err with
      | some e =>
          have hst := (executeToDictionary_unsupported ctx dbName n k false false false st).2
            (by simp [he])
          simp [he, hst]
      | none =>
          have h1 := executeToDictionary_preserves_other ctx dbName n k false false false st nm x hxn
          simp [he, ih _ nm x hxr, h1]

/-- The dictionary loop never resurrects a missing dictionary. -/
theorem processDicts_dict_none_mono (ctx : Ctx) (dbName : String) (k : Kind) :
    ∀ (ns : List String) (st : St) (nm x : String),
    dictExistsIn st nm x = false →
    dictExistsIn (processDicts ctx dbName k ns st).st nm x = false := by
  intro ns
  induction ns with
  | nil => intro st nm x h; simpa [processDicts] using h
  | cons n rest ih =>
      intro st nm x h
      unfold processDicts
      cases he : (executeToDictionary ctx dbName n k false false false st).err with
      | some e =>
          have hst := (executeToDictionary_unsupported ctx dbName n k false false false st).2
            (by simp [he])
          simp [he, hst, h]
      | none =>
          have h1 := executeToDictionary_dict_none_mono ctx dbName n k false false false st nm x h
          simp [he, ih _ nm x h1]

/-- A fully successful Drop/Detach dictionary loop removes every processed
dictionary. -/
theorem processDicts_removed (ctx : Ctx) (dbName : String) (k : Kind)
    (hk : k ≠ Kind.truncate) (hdb : dbName ≠ "") :
    ∀ (ns : List String) (st : St),
    (processDicts ctx dbName k ns st).err = none →
    ∀ x ∈ ns, dictExistsIn (processDicts ctx dbName k ns st).st dbName x = false := by
  intro ns
  induction ns with
  | nil => intro st _ x hx; simp at hx
  | cons n rest ih =>
      intro st herr x hx
      unfold processDicts at herr ⊢
      cases he : (executeToDictionary ctx dbName n k false false false st).err with
      | some e => simp [he] at herr
      | none =>
          simp only [he] at herr ⊢
          rcases List.mem_cons.mp hx with rfl | hxr
          · have hrm := executeToDictionary_removes ctx dbName x k false st hdb hk he
            have := processDicts_dict_none_mono ctx dbName k rest
              (executeToDictionary ctx dbName x k false false false st).st dbName x hrm
            simpa using this
          · have := ih (executeToDictionary ctx dbName n k false false false st).st
              (by simpa using herr) x hxr
            simpa using this

/-- The temporary-table handler never detaches a database. -/
theorem executeToTemporaryTable_noDetachDb (name : String) (k : Kind) (st : St) :
    ((executeToTemporaryTable name k st).trace).all (fun ev => !isDetachDbEv ev) = true := by
  unfold executeToTemporaryTable
  cases k <;> cases hfe : findExternal st name <;> simp [isDetachDbEv]

/-- The dictionary handler never detaches a database. -/
theorem executeToDictionary_noDetachDb (ctx : Ctx) (dbn dn : String) (k : Kind)
    (ie it nl : Bool) (st : St) :
    ((executeToDictionary ctx dbn dn k ie it nl st).trace).all
      (fun ev => !isDetachDbEv ev) = true := by
  unfold executeToDictionary
  cases it with
  | true => simp
  | false =>
      cases hdbo : getDb st (if dbn = "" then ctx.currentDatabase else dbn) with
      | none => cases ie <;> cases nl <;> simp_all [isDetachDbEv]
      | some d2 =>
          cases k <;> cases hde : dictExists d2 dn <;> cases ie <;> cases nl <;>
            by_cases hg : ctx.granted AccessType.DROP_DICTIONARY
                (if dbn = "" then ctx.currentDatabase else dbn) (some dn) = true <;>
            simp_all [isDetachDbEv]

set_option maxHeartbeats 3200000 in
/-- The resolved table dispatch never detaches a database beyond events
already in `tr0`. -/
theorem tableDispatch_noDetachDb (ctx : Ctx) (qp q : Query) (dbName : String) (d : Database)
    (t : Table) (st : St) (tr0 : List Event)
    (h0 : tr0.all (fun ev => !isDetachDbEv ev) = true) :
    ((tableDispatch ctx qp q dbName d t st tr0).trace).all
      (fun ev => !isDetachDbEv ev) = true := by
  unfold tableDispatch tablePost
  cases hk : q.kind <;>
    simp only [apply_ite Res.trace] <;>
    split_ifs <;>
    simp_all [List.all_append, isDetachDbEv]

/-- The table handler never detaches a database. -/
theorem executeToTable_noDetachDb (ctx : Ctx) (qp q : Query) (st : St) :
    ((executeToTable ctx qp q st).trace).all (fun ev => !isDetachDbEv ev) = true := by
  unfold executeToTable
  by_cases h1 : q.database = "" ∧ (findExternal st q.table).isSome = true
  · rw [if_pos h1]
    exact executeToTemporaryTable_noDetachDb q.table q.kind st
  · rw [if_neg h1]
    cases htmp : q.temporary with
    | true => cases hie : q.ifExists <;> simp_all
    | false =>
        have h0 : (if q.noDDLLock = true then []
            else [Event.acquireGuard
                    (if q.temporary = true ∨ q.database = "" then ctx.currentDatabase else q.database)
                    q.table]).all (fun ev => !isDetachDbEv ev) = true := by
          cases hnl : q.noDDLLock <;> simp [isDetachDbEv]
        cases hdbo : getDb st (if q.temporary = true ∨ q.database = "" then ctx.currentDatabase else q.database) with
        | none =>
            cases hk : q.kind <;> cases hie : q.ifExists <;>
              simp_all [tablePost, apply_ite Res.trace, List.all_append, isDetachDbEv]
        | some d =>
            cases hto : findTable d q.table with
            | none =>
                cases hk : q.kind <;> cases hie : q.ifExists <;>
                  by_cases hA : d.engine = "Atomic" <;>
                  simp_all [tablePost, apply_ite Res.trace, List.all_append, isDetachDbEv]
            | some t =>
                have hdisp := tableDispatch_noDetachDb ctx qp q
                  (if q.temporary = true ∨ q.database = "" then ctx.currentDatabase else q.database) d t st
                  (if q.noDDLLock = true then []
                   else [Event.acquireGuard
                           (if q.temporary = true ∨ q.database = "" then ctx.currentDatabase else q.database)
                           q.table]) h0
                simp_all

/-- The dictionary loop never detaches a database. -/
theorem processDicts_noDetachDb (ctx : Ctx) (dbName : String) (k : Kind) :
    ∀ (ns : List String) (st : St),
    ((processDicts ctx dbName k ns st).trace).all (fun ev => !isDetachDbEv ev) = true := by
  intro ns
  induction ns with
  | nil => intro st; simp [processDicts]
  | cons n rest ih =>
      intro st
      have h1 := executeToDictionary_noDetachDb ctx dbName n k false false false st
      have h2 := ih ((executeToDictionary ctx dbName n k false false false st).st)
      unfold processDicts
      cases he : (executeToDictionary ctx dbName n k false false false st).err with
      | none => simp_all [List.all_append, List.all_eq_true, isDetachDbEv]
      | some e => simp_all [List.all_append, List.all_eq_true, isDetachDbEv]

/-- The table loop never detaches a database. -/
theorem processTables_noDetachDb (ctx : Ctx) (qp : Query) (dbName : String) (k : Kind)
    (nd : Bool) : ∀ (ns : List String) (st : St),
    ((processTables ctx qp dbName k nd ns st).trace).all (fun ev => !isDetachDbEv ev) = true := by
  intro ns
  induction ns with
  | nil => intro st; simp [processTables]
  | cons n rest ih =>
      intro st
      have h1 := executeToTable_noDetachDb ctx qp (childQuery k dbName n nd) st
      have h2 := ih ((executeToTable ctx qp (childQuery k dbName n nd) st).st)
      unfold processTables
      cases he : (executeToTable ctx qp (childQuery k dbName n nd) st).err with
      | none => simp_all [List.all_append, List.all_eq_true, isDetachDbEv]
      | some e => simp_all [List.all_append, List.all_eq_true, isDetachDbEv]

/-- A name in the table-name snapshot denotes a present table. -/
theorem tableNames_mem (st : St) (db x : String) (h : x ∈ tableNames st db) :
    (findTableIn st db x).isSome = true := by
  unfold tableNames at h
  cases hdbo : getDb st db with
  | none => rw [hdbo] at h; simp at h
  | some d =>
      rw [hdbo] at h
      simp only [List.mem_map] at h
      obtain ⟨p, hp, rfl⟩ := h
      unfold findTableIn findTable
      rw [hdbo]
      have h1 : (List.find? (fun q2 => q2.1 == p.1) d.tables).isSome = true := by
        rw [List.find?_isSome]
        exact ⟨p, hp, by simp⟩
      cases hf : List.find? (fun q2 => q2.1 == p.1) d.tables with
      | none => rw [hf] at h1; simp at h1
      | some q2 => simp [hf]

set_option maxHeartbeats 1600000 in
/-- Claim C3: during recursive database Drop/Detach with pre-emptying, the
first child failure aborts the whole operation with that child's error;
already-removed children stay removed (no rollback), the failing child and
the not-yet-processed children remain present, and the database entry
itself remains present (no database-detach mutation occurs).  Part (I)
covers a failure among the dictionary children, part (II) a failure among
the table children after all dictionaries succeeded. -/
theorem C3_first_child_failure (ctx : Ctx) (qp : Query) (dbName : String) (kind : Kind)
    (ifExists noDelay : Bool) (st : St) (d : Database) (e : Err)
    (hdb : dbName ≠ "") (hk : kind ≠ Kind.truncate)
    (hdbo : getDb st dbName = some d)
    (hse : d.shouldBeEmptyOnDetach = true)
    (hacc : ctx.granted AccessType.DROP_DATABASE dbName none = true) :
    (∀ doneD badD restD,
       d.dicts = doneD ++ badD :: restD →
       (processDicts ctx dbName kind doneD st).err = none →
       (executeToDictionary ctx dbName badD kind false false false
           (processDicts ctx dbName kind doneD st).st).err = some e →
       (executeToDatabase ctx qp dbName kind ifExists noDelay st).err = some e ∧
       (executeToDatabase ctx qp dbName kind ifExists noDelay st).st =
         (processDicts ctx dbName kind doneD st).st ∧
       (getDb (executeToDatabase ctx qp dbName kind ifExists noDelay st).st dbName).isSome = true ∧
       ((executeToDatabase ctx qp dbName kind ifExists noDelay st).trace).all
         (fun ev => !isDetachDbEv ev) = true ∧
       ((executeToDatabase ctx qp dbName kind ifExists noDelay st).trace).all
         (fun ev => !isChildTable ev) = true ∧
       (∀ x ∈ doneD,
          dictExistsIn (executeToDatabase ctx qp dbName kind ifExists noDelay st).st dbName x =
            false) ∧
       (∀ x, x ∉ doneD →
          dictExistsIn (executeToDatabase ctx qp dbName kind ifExists noDelay st).st dbName x =
            dictExistsIn st dbName x) ∧
       (∀ nm y, findTableIn (executeToDatabase ctx qp dbName kind ifExists noDelay st).st nm y =
          findTableIn st nm y)) ∧
    (∀ done bad rest,
       (processDicts ctx dbName kind d.dicts st).err = none →
       tableNames (processDicts ctx dbName kind d.dicts st).st dbName = done ++ bad :: rest →
       (processTables ctx qp dbName kind noDelay done
           (processDicts ctx dbName kind d.dicts st).st).err = none →
       (executeToTable ctx qp (childQuery kind dbName bad noDelay)
           (processTables ctx qp dbName kind noDelay done
             (processDicts ctx dbName kind d.dicts st).st).st).err = some e →
       (executeToDatabase ctx qp dbName kind ifExists noDelay st).err = some e ∧
       (executeToDatabase ctx qp dbName kind ifExists noDelay st).st =
         (processTables ctx qp dbName kind noDelay done
           (processDicts ctx dbName kind d.dicts st).st).st ∧
       (getDb (executeToDatabase ctx qp dbName kind ifExists noDelay st).st dbName).isSome = true ∧
       ((executeToDatabase ctx qp dbName kind ifExists noDelay st).trace).all
         (fun ev => !isDetachDbEv ev) = true ∧
       (findTableIn (executeToDatabase ctx qp dbName kind ifExists noDelay st).st dbName
          bad).isSome = true ∧
       (∀ x ∈ rest, x ∉ done →
          (findTableIn (executeToDatabase ctx qp dbName kind ifExists noDelay st).st dbName
             x).isSome = true) ∧
       ((getDb st dbName).map Database.engine ≠ some "Replicated" →
          ∀ x ∈ done,
            findTableIn (executeToDatabase ctx qp dbName kind ifExists noDelay st).st dbName x =
              none)) := by
  have haccne : ¬(ctx.granted AccessType.DROP_DATABASE dbName none = false) := by
    simp [hacc]
  constructor
  · intro doneD badD restD hsplit hdoneOK hbadErr
    have hbadSome : (executeToDictionary ctx dbName badD kind false false false
        (processDicts ctx dbName kind doneD st).st).err.isSome = true := by
      simp [hbadErr]
    have hbadSt := (executeToDictionary_unsupported ctx dbName badD kind false false false
        ((processDicts ctx dbName kind doneD st).st)).2 hbadSome
    have hstepErr : (processDicts ctx dbName kind (badD :: restD)
        (processDicts ctx dbName kind doneD st).st).err = some e := by
      conv_lhs => rw [processDicts]
      simp [hbadErr]
    have hstepSt : (processDicts ctx dbName kind (badD :: restD)
        (processDicts ctx dbName kind doneD st).st).st =
        (processDicts ctx dbName kind doneD st).st := by
      conv_lhs => rw [processDicts]
      simp [hbadErr, hbadSt]
    have hrdErr : (processDicts ctx dbName kind d.dicts st).err = some e := by
      rw [hsplit, processDicts_append_err, hdoneOK]
      simpa using hstepErr
    have hrdSt : (processDicts ctx dbName kind d.dicts st).st =
        (processDicts ctx dbName kind doneD st).st := by
      rw [hsplit, processDicts_append_st, hdoneOK]
      simpa using hstepSt
    have hred : executeToDatabase ctx qp dbName kind ifExists noDelay st =
        ⟨(processDicts ctx dbName kind doneD st).st,
         Event.acquireGuard dbName "" ::
           Event.checkAccess AccessType.DROP_DATABASE dbName none ::
             (processDicts ctx dbName kind d.dicts st).trace,
         some e, false⟩ := by
      unfold executeToDatabase
      simp only [hdbo]
      rw [if_neg hk, if_neg haccne, if_pos hse]
      simp [hrdErr, hrdSt]
    rw [hred]
    refine ⟨rfl, rfl, ?_, ?_, ?_, ?_, ?_, ?_⟩
    · rw [processDicts_isSome, hdbo]
      rfl
    · refine List.all_eq_true.mpr ?_
      intro x hx
      simp only [List.mem_cons] at hx
      rcases hx with rfl | rfl | hx
      · rfl
      · rfl
      · exact List.all_eq_true.mp (processDicts_noDetachDb ctx dbName kind d.dicts st) x hx
    · refine List.all_eq_true.mpr ?_
      intro x hx
      simp only [List.mem_cons] at hx
      rcases hx with rfl | rfl | hx
      · rfl
      · rfl
      · exact List.all_eq_true.mp (processDicts_noTable ctx dbName kind d.dicts st) x hx
    · intro x hx
      exact processDicts_removed ctx dbName kind hk hdb doneD st hdoneOK x hx
    · intro x hx
      exact processDicts_preserve_other ctx dbName kind doneD st dbName x hx
    · intro nm y
      exact processDicts_preserve_tables ctx dbName kind doneD st nm y
  · intro done bad rest hdictsOK hnames hdoneOK2 hbadErr2
    have hbadSome2 : (executeToTable ctx qp (childQuery kind dbName bad noDelay)
        (processTables ctx qp dbName kind noDelay done
          (processDicts ctx dbName kind d.dicts st).st).st).err.isSome = true := by
      simp [hbadErr2]
    have hbadSt2 := (executeToTable_unsupported ctx qp (childQuery kind dbName bad noDelay)
        ((processTables ctx qp dbName kind noDelay done
          (processDicts ctx dbName kind d.dicts st).st).st)).2 hbadSome2
    have hstepErr2 : (processTables ctx qp dbName kind noDelay (bad :: rest)
        (processTables ctx qp dbName kind noDelay done
          (processDicts ctx dbName kind d.dicts st).st).st).err = some e := by
      conv_lhs => rw [processTables]
      simp [hbadErr2]
    have hstepSt2 : (processTables ctx qp dbName kind noDelay (bad :: rest)
        (processTables ctx qp dbName kind noDelay done
          (processDicts ctx dbName kind d.dicts st).st).st).st =
        (processTables ctx qp dbName kind noDelay done
          (processDicts ctx dbName kind d.dicts st).st).st := by
      conv_lhs => rw [processTables]
      simp [hbadErr2, hbadSt2]
    have hrtErr : (processTables ctx qp dbName kind noDelay
        (tableNames (processDicts ctx dbName kind d.dicts st).st dbName)
        (processDicts ctx dbName kind d.dicts st).st).err = some e := by
      rw [hnames, processTables_append_err, hdoneOK2]
      simpa using hstepErr2
    have hrtSt : (processTables ctx qp dbName kind noDelay
        (tableNames (processDicts ctx dbName kind d.dicts st).st dbName)
        (processDicts ctx dbName kind d.dicts st).st).st =
        (processTables ctx qp dbName kind noDelay done
          (processDicts ctx dbName kind d.dicts st).st).st := by
      rw [hnames, processTables_append_st, hdoneOK2]
      simpa using hstepSt2
    have hred : executeToDatabase ctx qp dbName kind ifExists noDelay st =
        ⟨(processTables ctx qp dbName kind noDelay done
            (processDicts ctx dbName kind d.dicts st).st).st,
         Event.acquireGuard dbName "" ::
           Event.checkAccess AccessType.DROP_DATABASE dbName none ::
             ((processDicts ctx dbName kind d.dicts st).trace ++
               (processTables ctx qp dbName kind noDelay
                 (tableNames (processDicts ctx dbName kind d.dicts st).st dbName)
                 (processDicts ctx dbName kind d.dicts st).st).trace),
         some e, false⟩ := by
      unfold executeToDatabase
      simp only [hdbo]
      rw [if_neg hk, if_neg haccne, if_pos hse]
      simp [hdictsOK, hrtErr, hrtSt]
    rw [hred]
    refine ⟨rfl, rfl, ?_, ?_, ?_, ?_, ?_⟩
    · rw [processTables_isSome, processDicts_isSome, hdbo]
      rfl
    · refine List.all_eq_true.mpr ?_
      intro x hx
      simp only [List.mem_cons, List.mem_append] at hx
      rcases hx with rfl | rfl | hx | hx
      · rfl
      · rfl
      · exact List.all_eq_true.mp (processDicts_noDetachDb ctx dbName kind d.dicts st) x hx
      · exact List.all_eq_true.mp
          (processTables_noDetachDb ctx qp dbName kind noDelay
            (tableNames (processDicts ctx dbName kind d.dicts st).st dbName)
            (processDicts ctx dbName kind d.dicts st).st) x hx
    · exact executeToTable_err_present ctx qp (childQuery kind dbName bad noDelay) _ rfl rfl hdb
        hbadSome2
    · intro x hx hxd
      rw [processTables_preserve_other ctx qp dbName kind noDelay done _ dbName x hxd]
      refine tableNames_mem _ dbName x ?_
      rw [hnames]
      exact List.mem_append_right _ (by simp [hx])
    · intro heng x hx
      have heng1 : (getDb (processDicts ctx dbName kind d.dicts st).st dbName).map
          Database.engine ≠ some "Replicated" := by
        rw [processDicts_engine]
        exact heng
      exact processTables_removed ctx qp dbName kind noDelay hk hdb done
        (processDicts ctx dbName kind d.dicts st).st heng1 hdoneOK2 x hx

/-- Witness for C3: dropping database `D` (tables `t1` droppable and `t2`
vetoed, dictionary `d1`) fails with the veto error of `t2`; the database
entry and the vetoed table survive. -/
theorem C3_witness :
    getDb stFixD "D" = some dbFixD ∧
    (executeToDatabase ctxAll qDropD "D" Kind.drop false false stFixD).err =
      some Err.cannotDrop ∧
    (getDb (executeToDatabase ctxAll qDropD "D" Kind.drop false false stFixD).st "D").isSome =
      true ∧
    (findTableIn (executeToDatabase ctxAll qDropD "D" Kind.drop false false stFixD).st "D"
        "t2").isSome = true := by
  have h1 : ("D" : String) ≠ "" := by decide
  have h2 : Kind.drop ≠ Kind.truncate := by decide
  have h3 : getDb stFixD "D" = some dbFixD := by decide
  have h4 : dbFixD.shouldBeEmptyOnDetach = true := by decide
  have h5 : ctxAll.granted AccessType.DROP_DATABASE "D" none = true := by decide
  have h6 : (processDicts ctxAll "D" Kind.drop dbFixD.dicts stFixD).err = none := by decide
  have h7 : tableNames (processDicts ctxAll "D" Kind.drop dbFixD.dicts stFixD).st "D" =
      ["t1"] ++ "t2" :: [] := by decide
  have h8 : (processTables ctxAll qDropD "D" Kind.drop false ["t1"]
      (processDicts ctxAll "D" Kind.drop dbFixD.dicts stFixD).st).err = none := by decide
  have h9 : (executeToTable ctxAll qDropD (childQuery Kind.drop "D" "t2" false)
      (processTables ctxAll qDropD "D" Kind.drop false ["t1"]
        (processDicts ctxAll "D" Kind.drop dbFixD.dicts stFixD).st).st).err =
      some Err.cannotDrop := by decide
  have h := (C3_first_child_failure ctxAll qDropD "D" Kind.drop false false stFixD dbFixD
      Err.cannotDrop h1 h2 h3 h4 h5).2 ["t1"] "t2" [] h6 h7 h8 h9
  exact ⟨h3, h.1, h.2.2.1, h.2.2.2.2.1⟩

end CH
